import Mathlib

/-!
Verification development for the IPL EDA dashboard (`src/dash.py`).

The program loads two pandas DataFrames (`matches`, `balls`) from CSV files
and runs a fixed sequence of group-by/aggregate/sort pipelines over them,
rendering one chart per pipeline.  This file gives a shallow embedding of
the loader and of every pipeline, modelling pandas tables as lists of named
columns of cell values, and proves or refutes the frozen claims about the
program.

Modelling conventions, documented once here:
* a DataFrame is a `Table`: a list of named columns, each a list of `Val`
  cells (integers, strings, parsed dates abstracted to their calendar year
  — the only component the program reads — and nulls);
* numeric aggregation results are rationals (`ℚ`), standing for the exact
  values of pandas integer/float arithmetic;
* `groupby(key)` follows pandas defaults: null keys are dropped and groups
  are emitted in ascending key order (`sort=True`);
* `value_counts` drops nulls and sorts counts descending;
* `sort_values` is modelled as a stable sort (see the C6 theorems for the
  consequences of this choice);
* an uncaught pandas `KeyError`/`AttributeError` aborts the remainder of
  the Streamlit script run; elements rendered before it stay visible.
-/

set_option maxHeartbeats 1000000
set_option maxRecDepth 100000

namespace Dash

/-- Cell values of a pandas-like table: integers, strings, parsed datetimes
(abstracted to their calendar year, the only component `dash.py` reads via
`.dt.year`), and nulls (NaN/NaT). -/
inductive Val where
  | vint (n : Int)
  | vstr (s : String)
  | vdate (year : Int)
  | vnull
deriving DecidableEq, Repr

/-- Rank used to order values of different kinds; pandas never mixes kinds
inside one key column, so only the within-kind order is observable. -/
def Val.rank : Val → Nat
  | .vint _ => 0
  | .vstr _ => 1
  | .vdate _ => 2
  | .vnull => 3

/-- Strict ordering on cell values, used for the ascending group keys that
pandas `groupby` (with its default `sort=True`) produces. -/
def Val.ltb : Val → Val → Bool
  | .vint a, .vint b => decide (a < b)
  | .vstr a, .vstr b => decide (a < b)
  | .vdate a, .vdate b => decide (a < b)
  | a, b => decide (a.rank < b.rank)

theorem Val.ltb_irrefl (a : Val) : a.ltb a = false := by
  cases a <;>
    simp only [Val.ltb, Val.rank, decide_eq_false_iff_not] <;>
    exact lt_irrefl _

theorem Val.ltb_asymm {a b : Val} (h : a.ltb b = true) : b.ltb a = false := by
  cases a <;> cases b <;>
    simp only [Val.ltb, Val.rank, decide_eq_true_eq, decide_eq_false_iff_not] at h ⊢ <;>
    first
      | omega
      | exact lt_asymm h

theorem Val.ltb_trans {a b c : Val} (h1 : a.ltb b = true) (h2 : b.ltb c = true) :
    a.ltb c = true := by
  cases a <;> cases b <;> cases c <;>
    simp only [Val.ltb, Val.rank, decide_eq_true_eq] at h1 h2 ⊢ <;>
    first
      | omega
      | exact lt_trans h1 h2

theorem Val.eq_of_not_ltb {a b : Val} (h1 : a.ltb b = false) (h2 : b.ltb a = false) :
    a = b := by
  cases a <;> cases b <;>
    simp only [Val.ltb, Val.rank, decide_eq_false_iff_not, Val.vint.injEq,
      Val.vstr.injEq, Val.vdate.injEq] at h1 h2 ⊢ <;>
    first
      | omega
      | exact le_antisymm (not_lt.mp h2) (not_lt.mp h1)

/-- Column-oriented table modelling a pandas DataFrame: named columns with
their cell lists.  Well-formed tables give every column the same length. -/
structure Table where
  cols : List (String × List Val)
deriving DecidableEq, Repr

/-- Looks up the first column with the given name. -/
def lookupCol : List (String × List Val) → String → Option (List Val)
  | [], _ => none
  | p :: ps, c => if p.1 = c then some p.2 else lookupCol ps c

/-- Column access `df[c]`, `none` modelling a pandas `KeyError`. -/
def Table.getCol (t : Table) (c : String) : Option (List Val) :=
  lookupCol t.cols c

/-- Column-presence test, modelling `c in df.columns`. -/
def Table.hasCol (t : Table) (c : String) : Bool :=
  (t.getCol c).isSome

/-- Replaces the cells of the first column named `c`. -/
def replaceCol (c : String) (vs : List Val) :
    List (String × List Val) → List (String × List Val)
  | [] => []
  | p :: ps => if p.1 = c then (c, vs) :: ps else p :: replaceCol c vs ps

/-- Column assignment `df[c] = vs`: replaces the column in place when present
(pandas keeps the column position), otherwise appends it on the right. -/
def Table.setCol (t : Table) (c : String) (vs : List Val) : Table :=
  if t.hasCol c then ⟨replaceCol c vs t.cols⟩ else ⟨t.cols ++ [(c, vs)]⟩

/-- Number of rows, as pandas `len(df)`: the length of the first column. -/
def Table.nrows (t : Table) : Nat :=
  match t.cols with
  | [] => 0
  | p :: _ => p.2.length

/-- Well-formedness: every column has exactly `nrows` cells. -/
def Table.wf (t : Table) : Prop :=
  ∀ p ∈ t.cols, p.2.length = t.nrows

theorem lookupCol_replaceCol_self {l : List (String × List Val)} {c : String}
    {vs : List Val} (h : (lookupCol l c).isSome) :
    lookupCol (replaceCol c vs l) c = some vs := by
  induction l with
  | nil => simp [lookupCol] at h
  | cons p ps ih =>
    by_cases hp : p.1 = c
    · simp [replaceCol, lookupCol, hp]
    · simp [replaceCol, lookupCol, hp] at h ⊢
      exact ih h

theorem lookupCol_replaceCol_ne {l : List (String × List Val)} {c c' : String}
    {vs : List Val} (h : c' ≠ c) :
    lookupCol (replaceCol c vs l) c' = lookupCol l c' := by
  induction l with
  | nil => simp [replaceCol]
  | cons p ps ih =>
    by_cases hp : p.1 = c
    · simp [replaceCol, lookupCol, hp, Ne.symm h]
    · simp only [replaceCol, hp, if_false, lookupCol]
      by_cases hp' : p.1 = c' <;> simp [hp', ih]

theorem lookupCol_append_right {l₁ l₂ : List (String × List Val)} {c : String}
    (h : lookupCol l₁ c = none) :
    lookupCol (l₁ ++ l₂) c = lookupCol l₂ c := by
  induction l₁ with
  | nil => simp
  | cons p ps ih =>
    by_cases hp : p.1 = c
    · simp [lookupCol, hp] at h
    · simp [lookupCol, hp] at h ⊢
      exact ih h

theorem lookupCol_append_left {l₁ l₂ : List (String × List Val)} {c : String}
    (h : (lookupCol l₁ c).isSome) :
    lookupCol (l₁ ++ l₂) c = lookupCol l₁ c := by
  induction l₁ with
  | nil => simp [lookupCol] at h
  | cons p ps ih =>
    by_cases hp : p.1 = c
    · simp [lookupCol, hp]
    · simp [lookupCol, hp] at h ⊢
      exact ih h

theorem Table.getCol_setCol_self (t : Table) (c : String) (vs : List Val) :
    (t.setCol c vs).getCol c = some vs := by
  unfold Table.setCol
  by_cases h : t.hasCol c = true
  · rw [if_pos h]
    exact lookupCol_replaceCol_self h
  · rw [if_neg h]
    have hn : lookupCol t.cols c = none := by
      cases hl : lookupCol t.cols c with
      | none => rfl
      | some v => exact absurd (by simp [Table.hasCol, Table.getCol, hl]) h
    show lookupCol (t.cols ++ [(c, vs)]) c = some vs
    rw [lookupCol_append_right hn]
    simp [lookupCol]

theorem Table.getCol_setCol_ne (t : Table) {c c' : String} (vs : List Val)
    (h : c' ≠ c) : (t.setCol c vs).getCol c' = t.getCol c' := by
  unfold Table.setCol
  by_cases hc : t.hasCol c = true
  · rw [if_pos hc]
    exact lookupCol_replaceCol_ne h
  · rw [if_neg hc]
    show lookupCol (t.cols ++ [(c, vs)]) c' = t.getCol c'
    cases hl : lookupCol t.cols c' with
    | none => rw [lookupCol_append_right hl]; simp [lookupCol, Ne.symm h, Table.getCol, hl]
    | some v => rw [lookupCol_append_left (by simp [hl])]; simp [Table.getCol, hl]

theorem Table.hasCol_setCol_self (t : Table) (c : String) (vs : List Val) :
    (t.setCol c vs).hasCol c = true := by
  simp [Table.hasCol, Table.getCol_setCol_self]

theorem Table.nrows_setCol_new (t : Table) {c : String} (vs : List Val)
    (h : t.hasCol c = false) (hne : t.cols ≠ []) :
    (t.setCol c vs).nrows = t.nrows := by
  unfold Table.setCol
  rw [if_neg (by simp [h])]
  cases hc : t.cols with
  | nil => exact absurd hc hne
  | cons p ps => simp [Table.nrows, hc]

theorem lookupCol_mem {l : List (String × List Val)} {c : String} {vs : List Val}
    (h : lookupCol l c = some vs) : ∃ p ∈ l, p.2 = vs := by
  induction l with
  | nil => simp [lookupCol] at h
  | cons p ps ih =>
    by_cases hp : p.1 = c
    · simp [lookupCol, hp] at h
      exact ⟨p, List.mem_cons_self p ps, h⟩
    · simp [lookupCol, hp] at h
      rcases ih h with ⟨q, hq, hq2⟩
      exact ⟨q, List.mem_cons_of_mem p hq, hq2⟩

theorem Table.length_eq_nrows {t : Table} (hwf : t.wf) {c : String}
    {vs : List Val} (h : t.getCol c = some vs) : vs.length = t.nrows := by
  rcases lookupCol_mem h with ⟨p, hp, hp2⟩
  rw [← hp2]
  exact hwf p hp

/-- Stable insertion into an already sorted list: `later x y = true` means
`x` must be placed after `y`; on a tie `x` stays in front of `y`, so earlier
input elements keep their relative position (stable `sort_values` model). -/
def insertLater (later : α → α → Bool) (x : α) : List α → List α
  | [] => [x]
  | y :: ys => if later x y then y :: insertLater later x ys else x :: y :: ys

/-- Stable insertion sort modelling `DataFrame.sort_values`. -/
def sortBy (later : α → α → Bool) (l : List α) : List α :=
  l.foldr (insertLater later) []

theorem sortBy_cons (later : α → α → Bool) (x : α) (xs : List α) :
    sortBy later (x :: xs) = insertLater later x (sortBy later xs) := rfl

theorem length_insertLater (later : α → α → Bool) (x : α) (l : List α) :
    (insertLater later x l).length = l.length + 1 := by
  induction l with
  | nil => rfl
  | cons y ys ih =>
    by_cases h : later x y
    · simp [insertLater, h, ih]
    · simp [insertLater, h]

theorem length_sortBy (later : α → α → Bool) (l : List α) :
    (sortBy later l).length = l.length := by
  induction l with
  | nil => rfl
  | cons x xs ih => rw [sortBy_cons, length_insertLater, ih, List.length_cons]

theorem mem_insertLater {later : α → α → Bool} {x a : α} {l : List α} :
    a ∈ insertLater later x l ↔ a = x ∨ a ∈ l := by
  induction l with
  | nil => simp [insertLater]
  | cons y ys ih =>
    by_cases h : later x y
    · simp only [insertLater, if_pos h, List.mem_cons, ih]
      tauto
    · simp only [insertLater, if_neg h, List.mem_cons]

theorem mem_sortBy {later : α → α → Bool} {a : α} {l : List α} :
    a ∈ sortBy later l ↔ a ∈ l := by
  induction l with
  | nil => simp [sortBy]
  | cons x xs ih =>
    rw [sortBy_cons, mem_insertLater, ih, List.mem_cons]

theorem pairwise_insertLater_sorted {later : α → α → Bool}
    (hasym : ∀ a b, later a b = true → later b a = false)
    (hneg : ∀ a b c, later a b = false → later b c = false → later a c = false)
    {x : α} {l : List α} (hl : l.Pairwise (fun a b => later a b = false)) :
    (insertLater later x l).Pairwise (fun a b => later a b = false) := by
  induction l with
  | nil => simp [insertLater]
  | cons y ys ih =>
    rcases List.pairwise_cons.mp hl with ⟨hy, hys⟩
    by_cases h : later x y = true
    · rw [insertLater, if_pos h]
      refine List.pairwise_cons.mpr ⟨?_, ih hys⟩
      intro z hz
      rcases mem_insertLater.mp hz with rfl | hz'
      · exact hasym _ _ h
      · exact hy z hz'
    · have hxy : later x y = false := by revert h; cases later x y <;> simp
      rw [insertLater, if_neg h]
      refine List.pairwise_cons.mpr ⟨?_, hl⟩
      intro z hz
      rcases List.mem_cons.mp hz with rfl | hz'
      · exact hxy
      · exact hneg x y z hxy (hy z hz')

theorem pairwise_sortBy_sorted {later : α → α → Bool}
    (hasym : ∀ a b, later a b = true → later b a = false)
    (hneg : ∀ a b c, later a b = false → later b c = false → later a c = false)
    (l : List α) :
    (sortBy later l).Pairwise (fun a b => later a b = false) := by
  induction l with
  | nil => simp [sortBy]
  | cons x xs ih =>
    rw [sortBy_cons]
    exact pairwise_insertLater_sorted hasym hneg ih

theorem pairwise_insertLater_of {later : α → α → Bool} {R : α → α → Prop}
    {x : α} {l : List α}
    (h1 : ∀ y ∈ l, R x y)
    (h2 : ∀ y ∈ l, later x y = true → R y x)
    (hl : l.Pairwise R) :
    (insertLater later x l).Pairwise R := by
  induction l with
  | nil => simp [insertLater]
  | cons y ys ih =>
    rcases List.pairwise_cons.mp hl with ⟨hy, hys⟩
    by_cases h : later x y = true
    · rw [insertLater, if_pos h]
      refine List.pairwise_cons.mpr ⟨?_, ?_⟩
      · intro z hz
        rcases mem_insertLater.mp hz with rfl | hz'
        · exact h2 y (List.mem_cons_self y ys) h
        · exact hy z hz'
      · exact ih (fun z hz => h1 z (List.mem_cons_of_mem y hz))
          (fun z hz hlz => h2 z (List.mem_cons_of_mem y hz) hlz) hys
    · rw [insertLater, if_neg h]
      exact List.pairwise_cons.mpr ⟨fun z hz => h1 z hz, hl⟩

/-- Stability consequence: if the input is pairwise related by `T`, every
tied pair (neither must come after the other) of the sorted output is still
related by `T` in output order. -/
theorem pairwise_sortBy_tie {later : α → α → Bool} {T : α → α → Prop}
    {l : List α} (hT : l.Pairwise T) :
    (sortBy later l).Pairwise
      (fun a b => (later a b = false ∧ later b a = false) → T a b) := by
  induction l with
  | nil => simp [sortBy]
  | cons x xs ih =>
    rcases List.pairwise_cons.mp hT with ⟨hx, hxs⟩
    rw [sortBy_cons]
    apply pairwise_insertLater_of
    · intro y hy _
      exact hx y (mem_sortBy.mp hy)
    · intro y hy hlxy ht
      exact absurd hlxy (by simp [ht.2])
    · exact ih hxs

theorem map_insertLater {f : α → β} {later1 : α → α → Bool}
    {later2 : β → β → Bool} (hcomp : ∀ a b, later1 a b = later2 (f a) (f b))
    (x : α) (l : List α) :
    (insertLater later1 x l).map f = insertLater later2 (f x) (l.map f) := by
  induction l with
  | nil => rfl
  | cons y ys ih =>
    rw [List.map_cons, insertLater, insertLater]
    by_cases h : later1 x y = true
    · rw [if_pos h, if_pos (by rw [← hcomp]; exact h), List.map_cons, ih]
    · rw [if_neg h, if_neg (by rw [← hcomp]; exact h)]
      simp

theorem map_sortBy {f : α → β} {later1 : α → α → Bool} {later2 : β → β → Bool}
    (hcomp : ∀ a b, later1 a b = later2 (f a) (f b)) (l : List α) :
    (sortBy later1 l).map f = sortBy later2 (l.map f) := by
  induction l with
  | nil => rfl
  | cons x xs ih =>
    rw [sortBy_cons, List.map_cons, sortBy_cons, map_insertLater hcomp, ih]

/-- Inserts a group key into an ascending key list, skipping duplicates;
builds the sorted distinct keys of a pandas `groupby`. -/
def insKey (k : Val) : List Val → List Val
  | [] => [k]
  | y :: ys =>
    if Val.ltb y k then y :: insKey k ys
    else if Val.ltb k y then k :: y :: ys
    else y :: ys

/-- Ascending list of distinct non-null values of a column: the group keys
produced by `groupby` with its defaults (`sort=True`, `dropna=True`). -/
def sortedKeys (col : List Val) : List Val :=
  col.foldl (fun acc v => if v = Val.vnull then acc else insKey v acc) []

theorem mem_insKey {k a : Val} {l : List Val} :
    a ∈ insKey k l ↔ a = k ∨ a ∈ l := by
  induction l with
  | nil => simp [insKey]
  | cons y ys ih =>
    by_cases h1 : Val.ltb y k = true
    · rw [insKey, if_pos h1]
      simp only [List.mem_cons, ih]
      tauto
    · rw [insKey, if_neg h1]
      by_cases h2 : Val.ltb k y = true
      · rw [if_pos h2]
        simp [List.mem_cons]
      · rw [if_neg h2]
        have hk : y = k := Val.eq_of_not_ltb (by revert h1; cases Val.ltb y k <;> simp)
          (by revert h2; cases Val.ltb k y <;> simp)
        subst hk
        simp only [List.mem_cons]
        tauto

theorem pairwise_insKey {k : Val} {l : List Val}
    (hl : l.Pairwise (fun a b => Val.ltb a b = true)) :
    (insKey k l).Pairwise (fun a b => Val.ltb a b = true) := by
  induction l with
  | nil => simp [insKey]
  | cons y ys ih =>
    rcases List.pairwise_cons.mp hl with ⟨hy, hys⟩
    by_cases h1 : Val.ltb y k = true
    · rw [insKey, if_pos h1]
      refine List.pairwise_cons.mpr ⟨?_, ih hys⟩
      intro z hz
      rcases mem_insKey.mp hz with rfl | hz'
      · exact h1
      · exact hy z hz'
    · rw [insKey, if_neg h1]
      by_cases h2 : Val.ltb k y = true
      · rw [if_pos h2]
        refine List.pairwise_cons.mpr ⟨?_, hl⟩
        intro z hz
        rcases List.mem_cons.mp hz with rfl | hz'
        · exact h2
        · exact Val.ltb_trans h2 (hy z hz')
      · rw [if_neg h2]
        exact hl

theorem mem_foldl_insKey (col : List Val) (acc : List Val) (a : Val) :
    a ∈ col.foldl (fun acc v => if v = Val.vnull then acc else insKey v acc) acc ↔
      a ∈ acc ∨ (a ∈ col ∧ a ≠ Val.vnull) := by
  induction col generalizing acc with
  | nil => simp
  | cons v vs ih =>
    simp only [List.foldl]
    by_cases hv : v = Val.vnull
    · rw [if_pos hv, ih]
      subst hv
      simp only [List.mem_cons]
      constructor
      · rintro (ha | ⟨hvs, hn⟩)
        · exact Or.inl ha
        · exact Or.inr ⟨Or.inr hvs, hn⟩
      · rintro (ha | ⟨(rfl | hvs), hn⟩)
        · exact Or.inl ha
        · exact absurd rfl hn
        · exact Or.inr ⟨hvs, hn⟩
    · rw [if_neg hv, ih]
      simp only [mem_insKey, List.mem_cons]
      constructor
      · rintro ((rfl | ha) | ⟨hvs, hn⟩)
        · exact Or.inr ⟨Or.inl rfl, hv⟩
        · exact Or.inl ha
        · exact Or.inr ⟨Or.inr hvs, hn⟩
      · rintro (ha | ⟨(rfl | hvs), hn⟩)
        · exact Or.inl (Or.inr ha)
        · exact Or.inl (Or.inl rfl)
        · exact Or.inr ⟨hvs, hn⟩

theorem mem_sortedKeys {col : List Val} {a : Val} :
    a ∈ sortedKeys col ↔ a ∈ col ∧ a ≠ Val.vnull := by
  unfold sortedKeys
  rw [mem_foldl_insKey]
  simp

theorem pairwise_foldl_insKey (col : List Val) (acc : List Val)
    (hacc : acc.Pairwise (fun a b => Val.ltb a b = true)) :
    (col.foldl (fun acc v => if v = Val.vnull then acc else insKey v acc)
      acc).Pairwise (fun a b => Val.ltb a b = true) := by
  induction col generalizing acc with
  | nil => exact hacc
  | cons v vs ih =>
    simp only [List.foldl]
    by_cases hv : v = Val.vnull
    · rw [if_pos hv]; exact ih acc hacc
    · rw [if_neg hv]; exact ih _ (pairwise_insKey hacc)

theorem pairwise_sortedKeys (col : List Val) :
    (sortedKeys col).Pairwise (fun a b => Val.ltb a b = true) :=
  pairwise_foldl_insKey col [] (by simp)

theorem nodup_sortedKeys (col : List Val) : (sortedKeys col).Nodup := by
  apply List.Pairwise.imp ?_ (pairwise_sortedKeys col)
  intro a b hab heq
  subst heq
  rw [Val.ltb_irrefl] at hab
  exact absurd hab (by simp)

/-- Distinct non-null values of a column in first-encounter order, as the
hash-based distinct pass of `value_counts` collects them before sorting by
count. -/
def encDistinct (col : List Val) : List Val :=
  col.foldl (fun acc v => if v = Val.vnull ∨ v ∈ acc then acc else acc ++ [v]) []

theorem mem_foldl_enc (col : List Val) (acc : List Val) (a : Val) :
    a ∈ col.foldl (fun acc v => if v = Val.vnull ∨ v ∈ acc then acc
        else acc ++ [v]) acc ↔
      a ∈ acc ∨ (a ∈ col ∧ a ≠ Val.vnull) := by
  induction col generalizing acc with
  | nil => simp
  | cons v vs ih =>
    simp only [List.foldl]
    by_cases hv : v = Val.vnull ∨ v ∈ acc
    · rw [if_pos hv, ih]
      simp only [List.mem_cons]
      constructor
      · rintro (ha | ⟨hvs, hn⟩)
        · exact Or.inl ha
        · exact Or.inr ⟨Or.inr hvs, hn⟩
      · rintro (ha | ⟨(rfl | hvs), hn⟩)
        · exact Or.inl ha
        · rcases hv with hv | hv
          · exact absurd hv hn
          · exact Or.inl hv
        · exact Or.inr ⟨hvs, hn⟩
    · push_neg at hv
      rw [if_neg (by simp [hv.1, hv.2])]
      rw [ih]
      simp only [List.mem_append, List.mem_singleton, List.mem_cons,
        List.not_mem_nil, or_false]
      constructor
      · rintro ((ha | rfl) | ⟨hvs, hn⟩)
        · exact Or.inl ha
        · exact Or.inr ⟨Or.inl rfl, hv.1⟩
        · exact Or.inr ⟨Or.inr hvs, hn⟩
      · rintro (ha | ⟨(rfl | hvs), hn⟩)
        · exact Or.inl (Or.inl ha)
        · exact Or.inl (Or.inr rfl)
        · exact Or.inr ⟨hvs, hn⟩

theorem mem_encDistinct {col : List Val} {a : Val} :
    a ∈ encDistinct col ↔ a ∈ col ∧ a ≠ Val.vnull := by
  unfold encDistinct
  rw [mem_foldl_enc]
  simp

theorem nodup_foldl_enc (col : List Val) (acc : List Val) (hacc : acc.Nodup) :
    (col.foldl (fun acc v => if v = Val.vnull ∨ v ∈ acc then acc
      else acc ++ [v]) acc).Nodup := by
  induction col generalizing acc with
  | nil => exact hacc
  | cons v vs ih =>
    simp only [List.foldl]
    by_cases hv : v = Val.vnull ∨ v ∈ acc
    · rw [if_pos hv]; exact ih acc hacc
    · push_neg at hv
      rw [if_neg (by simp [hv.1, hv.2])]
      refine ih _ ?_
      simp [List.nodup_append, hacc, hv.2]

theorem nodup_encDistinct (col : List Val) : (encDistinct col).Nodup :=
  nodup_foldl_enc col [] (by simp)

/-- Numeric reading of a cell: integer cells contribute their value, nulls
and non-numeric cells contribute nothing (pandas sums skip NaN). -/
def qOf : Val → ℚ
  | .vint n => (n : ℚ)
  | _ => 0

/-- Sum of the `vcol` cells over the rows whose `kcol` cell equals `k`
(index-aligned, as one pandas groupby `sum` aggregation). -/
def colSumBy (kcol vcol : List Val) (k : Val) : ℚ :=
  (((kcol.zip vcol).filter (fun r => decide (r.1 = k))).map (fun r => qOf r.2)).sum

/-- Count of non-null `vcol` cells over the rows whose `kcol` cell equals
`k`: a pandas groupby `count` aggregation. -/
def colCountBy (kcol vcol : List Val) (k : Val) : ℚ :=
  (((kcol.zip vcol).filter
    (fun r => decide (r.1 = k) && decide (r.2 ≠ Val.vnull))).length : ℚ)

/-- Number of rows whose `kcol` cell equals `k`: a groupby `size`. -/
def countKey (kcol : List Val) (k : Val) : ℚ :=
  ((kcol.filter (fun v => decide (v = k))).length : ℚ)

/-- Counting a constantly-1 companion column is just counting the group
rows: the `ball_faced` column set by the script is 1 on every row. -/
theorem colCountBy_replicate (kcol : List Val) (k : Val) :
    colCountBy kcol (List.replicate kcol.length (Val.vint 1)) k =
      countKey kcol k := by
  unfold colCountBy countKey
  congr 1
  induction kcol with
  | nil => rfl
  | cons v vs ih =>
    simp only [List.length_cons, List.replicate_succ, List.zip_cons_cons,
      List.filter_cons]
    by_cases hv : v = k
    · rw [if_pos (by simp [hv]), if_pos (by simp [hv])]
      simp only [List.length_cons]
      rw [ih]
    · rw [if_neg (by simp [hv]), if_neg (by simp [hv])]
      exact ih

/-- Chart payload handed to the presentation layer: either a keyed series
(bar/line/pie data as (category, value) pairs) or a raw histogram input
with its bin count. -/
inductive Chart where
  | series (title : String) (data : List (Val × ℚ))
  | hist (title : String) (nbins : Nat) (values : List Val)
deriving DecidableEq, Repr

def Chart.title : Chart → String
  | .series t _ => t
  | .hist t _ _ => t

/-- A `groupby(key).size()` series in ascending key order. -/
def sizeSeries (col : List Val) : List (Val × ℚ) :=
  (sortedKeys col).map (fun k => (k, countKey col k))

/-- `Series.value_counts()`: distinct non-null values with their counts,
stably sorted by count descending. -/
def valueCounts (col : List Val) : List (Val × ℚ) :=
  sortBy (fun a b => decide (a.2 < b.2))
    ((encDistinct col).map (fun k => (k, countKey col k)))

/-- dash.py line 88: `matches.groupby("season").size()`, bar chart. -/
def matchesPerSeason (m : Table) : Except String Chart :=
  match m.getCol "season" with
  | none => .error "KeyError: season"
  | some col => .ok (.series "Matches Played Per Season" (sizeSeries col))

/-- dash.py lines 93-96: `matches["venue"].value_counts()`, head(20). -/
def venueChart (m : Table) : Except String Chart :=
  match m.getCol "venue" with
  | none => .error "KeyError: venue"
  | some col =>
    .ok (.series "Top 20 Most Played Venues" ((valueCounts col).take 20))

/-- dash.py lines 99-102: win_by_runs histogram, guarded by presence. -/
def winByRunsHist (m : Table) : Option Chart :=
  (m.getCol "win_by_runs").map
    (fun col => .hist "Distribution of Victory Margin (Runs)" 40 col)

/-- dash.py lines 104-107: win_by_wickets histogram, guarded. -/
def winByWicketsHist (m : Table) : Option Chart :=
  (m.getCol "win_by_wickets").map
    (fun col => .hist "Distribution of Victory Margin (Wickets)" 20 col)

/-- dash.py lines 109-112: `matches["winner"].value_counts()`, all teams;
unguarded. -/
def winnersChart (m : Table) : Except String Chart :=
  match m.getCol "winner" with
  | none => .error "KeyError: winner"
  | some col => .ok (.series "Most Successful Teams" (valueCounts col))

/-- dash.py lines 120-124: guarded player_of_match value_counts, head(20). -/
def pomChart (m : Table) : Option Chart :=
  (m.getCol "player_of_match").map
    (fun col =>
      .series "Top 20 Player of the Match Winners" ((valueCounts col).take 20))

/-- dash.py lines 126-130: top run scorers — groupby batsman, sum of
batsman_runs, sort descending, head(20); unguarded. -/
def runsChart (b : Table) : Except String Chart :=
  match b.getCol "batsman" with
  | none => .error "KeyError: batsman"
  | some kcol =>
    match b.getCol "batsman_runs" with
    | none => .error "KeyError: batsman_runs"
    | some rcol =>
      .ok (.series "Top 20 Run Scorers"
        ((sortBy (fun a b => decide (a.2 < b.2))
          ((sortedKeys kcol).map (fun k => (k, colSumBy kcol rcol k)))).take 20))

/-- dash.py lines 132-136: top wicket takers over the rows with
`is_wicket == 1`; unguarded, raises when is_wicket is absent. -/
def wkChart (b : Table) : Except String Chart :=
  match b.getCol "is_wicket" with
  | none => .error "KeyError: is_wicket"
  | some wcol =>
    match b.getCol "bowler" with
    | none => .error "KeyError: bowler"
    | some bcol =>
      let fb := ((wcol.zip bcol).filter
        (fun r => decide (r.1 = Val.vint 1))).map (fun r => r.2)
      .ok (.series "Top 20 Wicket Takers"
        ((sortBy (fun a b => decide (a.2 < b.2))
          ((sortedKeys fb).map (fun k => (k, countKey fb k)))).take 20))

/-- dash.py lines 144-145: boundary indicator columns written onto the
shared balls frame. -/
def addSixFour (b : Table) : Except String Table :=
  match b.getCol "batsman_runs" with
  | none => .error "KeyError: batsman_runs"
  | some rcol =>
    .ok ((b.setCol "is_four"
        (rcol.map (fun v => Val.vint (if v = Val.vint 4 then 1 else 0)))).setCol
      "is_six" (rcol.map (fun v => Val.vint (if v = Val.vint 6 then 1 else 0))))

/-- dash.py lines 147-152: six hitters from the boundary aggregation
(groupby batsman, sums of is_four and is_six, sorted by is_six
descending, head(20)). -/
def sixChart (b : Table) : Except String Chart :=
  match b.getCol "batsman" with
  | none => .error "KeyError: batsman"
  | some kcol =>
    match b.getCol "is_four" with
    | none => .error "KeyError: is_four"
    | some fcol =>
      match b.getCol "is_six" with
      | none => .error "KeyError: is_six"
      | some scol =>
        .ok (.series "Top 20 Six Hitters"
          (((sortBy (fun a b => decide (a.2.2 < b.2.2))
            ((sortedKeys kcol).map (fun k =>
              (k, colSumBy kcol fcol k, colSumBy kcol scol k)))).take 20).map
            (fun r => (r.1, r.2.2))))

/-- dash.py lines 154-156: four hitters from the same boundary ranking
(shared is_six ordering, four-count values). -/
def fourChart (b : Table) : Except String Chart :=
  match b.getCol "batsman" with
  | none => .error "KeyError: batsman"
  | some kcol =>
    match b.getCol "is_four" with
    | none => .error "KeyError: is_four"
    | some fcol =>
      match b.getCol "is_six" with
      | none => .error "KeyError: is_six"
      | some scol =>
        .ok (.series "Top 20 Four Hitters"
          (((sortBy (fun a b => decide (a.2.2 < b.2.2))
            ((sortedKeys kcol).map (fun k =>
              (k, colSumBy kcol fcol k, colSumBy kcol scol k)))).take 20).map
            (fun r => (r.1, r.2.1))))

/-- dash.py line 158: `balls["ball_faced"] = 1` broadcast over all rows. -/
def addBallFaced (b : Table) : Table :=
  b.setCol "ball_faced" (List.replicate b.nrows (Val.vint 1))

/-- dash.py lines 159-164: strike-rate aggregation (sum of batsman_runs,
count of ball_faced), rate column, sort descending, head(20); despite the
chart title no minimum-balls filter is applied. -/
def srChart (b : Table) : Except String Chart :=
  match b.getCol "batsman" with
  | none => .error "KeyError: batsman"
  | some kcol =>
    match b.getCol "batsman_runs" with
    | none => .error "KeyError: batsman_runs"
    | some rcol =>
      match b.getCol "ball_faced" with
      | none => .error "KeyError: ball_faced"
      | some fcol =>
        .ok (.series "Highest Strike Rate (Min Balls Faced = 200)"
          (((sortBy (fun a b => decide (a.2.2.2 < b.2.2.2))
            ((sortedKeys kcol).map (fun k =>
              (k, colSumBy kcol rcol k, colCountBy kcol fcol k,
                colSumBy kcol rcol k / colCountBy kcol fcol k * 100)))).take 20).map
            (fun r => (r.1, r.2.2.2))))

/-- dash.py lines 167-169: runs per over, a line series in ascending over
order. -/
def roChart (b : Table) : Except String Chart :=
  match b.getCol "over" with
  | none => .error "KeyError: over"
  | some ocol =>
    match b.getCol "total_runs" with
    | none => .error "KeyError: total_runs"
    | some tcol =>
      .ok (.series "Runs Scored Per Over"
        ((sortedKeys ocol).map (fun k => (k, colSumBy ocol tcol k))))

/-- dash.py lines 177-182: guarded dismissal-kind value_counts pie. -/
def dismissalChart (b : Table) : Option Chart :=
  (b.getCol "dismissal_kind").map
    (fun col => .series "Types of Dismissals" (valueCounts col))

/-- dash.py line 184: `balls["runs_conceded"] = balls["total_runs"]`. -/
def addRunsConceded (b : Table) : Except String Table :=
  match b.getCol "total_runs" with
  | none => .error "KeyError: total_runs"
  | some tcol => .ok (b.setCol "runs_conceded" tcol)

/-- dash.py lines 185-191: economy aggregation (sum of runs_conceded,
count of ball_faced), economy column, ascending sort, head(20). -/
def ecoChart (b : Table) : Except String Chart :=
  match b.getCol "bowler" with
  | none => .error "KeyError: bowler"
  | some kcol =>
    match b.getCol "runs_conceded" with
    | none => .error "KeyError: runs_conceded"
    | some ccol =>
      match b.getCol "ball_faced" with
      | none => .error "KeyError: ball_faced"
      | some fcol =>
        .ok (.series "Top Economy Bowlers"
          (((sortBy (fun a b => decide (b.2.2.2 < a.2.2.2))
            ((sortedKeys kcol).map (fun k =>
              (k, colSumBy kcol ccol k, colCountBy kcol fcol k,
                colSumBy kcol ccol k / (colCountBy kcol fcol k / 6))))).take 20).map
            (fun r => (r.1, r.2.2.2))))

/-- dash.py lines 193-195: wickets per over from the is_wicket filter;
unguarded. -/
def woChart (b : Table) : Except String Chart :=
  match b.getCol "is_wicket" with
  | none => .error "KeyError: is_wicket"
  | some wcol =>
    match b.getCol "over" with
    | none => .error "KeyError: over"
    | some ocol =>
      let fo := ((wcol.zip ocol).filter
        (fun r => decide (r.1 = Val.vint 1))).map (fun r => r.2)
      .ok (.series "Wickets Per Over"
        ((sortedKeys fo).map (fun k => (k, countKey fo k))))

/-- dash.py lines 203-210: per toss winner, count of matches where the
toss winner also won; guarded on both columns. -/
def tossChart (m : Table) : Option Chart :=
  match m.getCol "toss_winner", m.getCol "winner" with
  | some twcol, some wcol =>
    some (.series "Teams Winning Toss & Match"
      ((sortedKeys twcol).map (fun k =>
        (k, (((twcol.zip wcol).filter
          (fun r => decide (r.1 = k) && decide (r.2 = k))).length : ℚ)))))
  | _, _ => none

/-- dash.py lines 212-217: guarded toss-decision value_counts pie. -/
def tossDecChart (m : Table) : Option Chart :=
  (m.getCol "toss_decision").map
    (fun col => .series "Toss Decision: Bat vs Field" (valueCounts col))

/-- dash.py lines 219-222: guarded extra-runs histogram. -/
def extraRunsHist (b : Table) : Option Chart :=
  (b.getCol "extra_runs").map
    (fun col => .hist "Distribution of Extra Runs" 15 col)

/-- dash.py lines 224-229: guarded extra-type value_counts bar. -/
def extraTypeChart (b : Table) : Option Chart :=
  (b.getCol "extra_type").map
    (fun col => .series "Types of Extras" (valueCounts col))

/-- Script state while the tabs render: the shared mutable balls frame, the
charts rendered so far, and the uncaught exception, if one was raised. -/
structure DState where
  balls : Table
  charts : List Chart
  err : Option String
deriving DecidableEq, Repr

/-- Renders a matches-based chart (computed from the immutable matches
frame), unless an earlier exception already aborted the run. -/
def DState.chartV (s : DState) (r : Except String Chart) : DState :=
  match s.err with
  | some _ => s
  | none =>
    match r with
    | .ok c => ⟨s.balls, s.charts ++ [c], none⟩
    | .error e => ⟨s.balls, s.charts, some e⟩

/-- Renders a balls-based chart computed from the current balls frame. -/
def DState.chartB (s : DState) (f : Table → Except String Chart) : DState :=
  match s.err with
  | some _ => s
  | none =>
    match f s.balls with
    | .ok c => ⟨s.balls, s.charts ++ [c], none⟩
    | .error e => ⟨s.balls, s.charts, some e⟩

/-- Renders a guarded matches-based chart: a failed column guard skips the
chart without raising. -/
def DState.chartO (s : DState) (r : Option Chart) : DState :=
  match s.err with
  | some _ => s
  | none =>
    match r with
    | some c => ⟨s.balls, s.charts ++ [c], none⟩
    | none => s

/-- Renders a guarded balls-based chart. -/
def DState.chartOB (s : DState) (f : Table → Option Chart) : DState :=
  match s.err with
  | some _ => s
  | none =>
    match f s.balls with
    | some c => ⟨s.balls, s.charts ++ [c], none⟩
    | none => s

/-- Applies a fallible column assignment to the shared balls frame. -/
def DState.mutB (s : DState) (f : Table → Except String Table) : DState :=
  match s.err with
  | some _ => s
  | none =>
    match f s.balls with
    | .ok b2 => ⟨b2, s.charts, none⟩
    | .error e => ⟨s.balls, s.charts, some e⟩

/-- Applies an infallible column assignment to the shared balls frame. -/
def DState.mutP (s : DState) (f : Table → Table) : DState :=
  match s.err with
  | some _ => s
  | none => ⟨f s.balls, s.charts, none⟩

/-- The whole tabbed script body of dash.py (lines 85-229) over the two
loaded frames: all five tabs' code runs top to bottom in one Streamlit
pass; an uncaught exception stops the remainder but keeps the charts
already rendered. -/
def runDash (m b : Table) : List Chart × Option String :=
  let s0 : DState := ⟨b, [], none⟩
  let s1 := s0.chartV (matchesPerSeason m)
  let s2 := s1.chartV (venueChart m)
  let s3 := s2.chartO (winByRunsHist m)
  let s4 := s3.chartO (winByWicketsHist m)
  let s5 := s4.chartV (winnersChart m)
  let s6 := s5.chartO (pomChart m)
  let s7 := s6.chartB runsChart
  let s8 := s7.chartB wkChart
  let s9 := s8.mutB addSixFour
  let s10 := s9.chartB sixChart
  let s11 := s10.chartB fourChart
  let s12 := s11.mutP addBallFaced
  let s13 := s12.chartB srChart
  let s14 := s13.chartB roChart
  let s15 := s14.chartOB dismissalChart
  let s16 := s15.mutB addRunsConceded
  let s17 := s16.chartB ecoChart
  let s18 := s17.chartB woChart
  let s19 := s18.chartO (tossChart m)
  let s20 := s19.chartO (tossDecChart m)
  let s21 := s20.chartOB extraRunsHist
  let s22 := s21.chartOB extraTypeChart
  (s22.charts, s22.err)

/-- Numeric reading of a digit list (helper for the date parser model). -/
def digitsToNat (cs : List Char) : Option Nat :=
  if cs ≠ [] ∧ cs.all (fun c => c.isDigit) then
    some (cs.foldl (fun n c => n * 10 + (c.toNat - 48)) 0)
  else none

/-- Splits a character list on the dash character (structural helper for
the date parser model). -/
def splitDash : List Char → List (List Char)
  | [] => [[]]
  | c :: rest =>
    if c = '-' then [] :: splitDash rest
    else
      match splitDash rest with
      | g :: gs => (c :: g) :: gs
      | [] => [[c]]

/-- Minimal model of the pandas datetime parser for ISO-formatted strings:
accepts YYYY-MM-DD with numeric fields and in-range month and day, giving
the calendar year; anything else fails to parse. -/
def parseYear (s : String) : Option Int :=
  match splitDash s.toList with
  | [y, mo, d] =>
    match digitsToNat y, digitsToNat mo, digitsToNat d with
    | some yn, some mn, some dn =>
      if 1 ≤ mn ∧ mn ≤ 12 ∧ 1 ≤ dn ∧ dn ≤ 31 then some (yn : Int) else none
    | _, _, _ => none
  | _ => none

/-- Whether `pd.to_datetime` converts the cell (nulls become NaT, dates
stay dates, strings must parse). -/
def parseOkCell : Val → Bool
  | .vstr s => (parseYear s).isSome
  | .vnull => true
  | .vdate _ => true
  | .vint _ => false

/-- The converted cell, for cells that convert. -/
def parseCell : Val → Val
  | .vstr s =>
    match parseYear s with
    | some y => .vdate y
    | none => .vstr s
  | v => v

/-- `pd.to_datetime(col, errors="ignore")`: converts the whole column when
every cell converts; any failure returns the input column unchanged. -/
def toDatetimeIgnore (col : List Val) : List Val :=
  if col.all parseOkCell then col.map parseCell else col

/-- Datetime-likeness of a cell: `.dt` accessors require a datetimelike
column (dates and NaT qualify). -/
def datetimeLike : Val → Bool
  | .vdate _ => true
  | .vnull => true
  | _ => false

/-- Year of a datetime cell; NaT yields NaN. -/
def dtYearCell : Val → Val
  | .vdate y => .vint y
  | _ => .vnull

/-- Trims whitespace from all column names (dash.py lines 50-51). -/
def trimCols (t : Table) : Table :=
  ⟨t.cols.map (fun p => (p.1.trim, p.2))⟩

/-- dash.py lines 58-59: derive season as `date.dt.year` when season is
missing; `none` models the AttributeError that `.dt` raises on a column
that stayed non-datetime because some value failed to parse. -/
def seasonStep (m : Table) : Option Table :=
  if m.hasCol "season" = false then
    match m.getCol "date" with
    | some dc =>
      if dc.all datetimeLike then some (m.setCol "season" (dc.map dtYearCell))
      else none
    | none => some m
  else some m

/-- dash.py lines 62-63: derive is_wicket from dismissal_kind when both
conditions hold (is_wicket absent, dismissal_kind present); otherwise the
frame is left untouched. -/
def addIsWicket (b : Table) : Table :=
  if b.hasCol "is_wicket" = false then
    match b.getCol "dismissal_kind" with
    | some dc =>
      b.setCol "is_wicket"
        (dc.map (fun v => Val.vint (if v = Val.vnull then 0 else 1)))
    | none => b
  else b

/-- Streamlit-visible output of load_data before any chart: the two debug
lines showing each file's existence, and the error message, if shown. -/
structure LoadReport where
  matchesFound : Bool
  ballsFound : Bool
  errorShown : Option String
deriving DecidableEq, Repr

/-- How the loader ends: `st.stop()` after the missing-file error, an
uncaught exception from the season derivation, or two loaded frames. -/
inductive LoadOutcome where
  | stoppedMissing
  | raisedDtYear
  | loaded (m b : Table)
deriving DecidableEq, Repr

/-- The fixed error text of dash.py lines 37-42: it names both expected
files, regardless of which one is missing. -/
def missingMsg : String :=
  "CSV files not found! Ensure both CSVs are in the data folder of your repo: IPL_Matches_2008-2020.csv and IPL_Ball_by_Ball_2008-2020.csv"

/-- dash.py lines 26-65: the loader. Existence of the two source files is
passed as the two booleans, the raw parsed CSV frames as the two tables. -/
def load_data (matchesExists ballsExists : Bool) (rawMatches rawBalls : Table) :
    LoadReport × LoadOutcome :=
  if matchesExists && ballsExists then
    let m0 := trimCols rawMatches
    let b0 := trimCols rawBalls
    let m1 :=
      match m0.getCol "date" with
      | some dc => m0.setCol "date" (toDatetimeIgnore dc)
      | none => m0
    match seasonStep m1 with
    | none => (⟨matchesExists, ballsExists, none⟩, .raisedDtYear)
    | some m2 => (⟨matchesExists, ballsExists, none⟩, .loaded m2 (addIsWicket b0))
  else
    (⟨matchesExists, ballsExists, some missingMsg⟩, .stoppedMissing)

/-- Whole-program run: load, then the tabbed dashboard. `st.stop()` or an
uncaught exception during load produces no charts at all. -/
def dashMain (matchesExists ballsExists : Bool) (rawMatches rawBalls : Table) :
    LoadReport × (List Chart × Option String) :=
  match load_data matchesExists ballsExists rawMatches rawBalls with
  | (rep, .stoppedMissing) => (rep, ([], none))
  | (rep, .raisedDtYear) =>
    (rep, ([], some "AttributeError: dt accessor on non-datetime column"))
  | (rep, .loaded m b) => (rep, runDash m b)

/-- Strike rate as the spec states it: 100 × sum(batsman_runs) over the
batsman's deliveries, divided by the count of deliveries faced. -/
def specStrikeRate (kcol rcol : List Val) (k : Val) : ℚ :=
  100 * colSumBy kcol rcol k / countKey kcol k

/-- Economy rate as the spec states it: sum(total_runs) over the bowler's
deliveries, divided by (count of deliveries bowled / 6). -/
def specEconomy (kcol tcol : List Val) (k : Val) : ℚ :=
  colSumBy kcol tcol k / (countKey kcol k / 6)

/-- The economy pipeline exactly as the script body has it (dash.py lines
184-191): the runs_conceded assignment followed by the aggregation; this
is the function a standalone invocation of that code block computes. -/
def ecoBlock (b : Table) : Except String Chart :=
  match addRunsConceded b with
  | .error e => .error e
  | .ok b2 => ecoChart b2

/-- Economy pipeline with pipeline-local derivations, following the spec
note that is_four/is_six/ball_faced/runs_conceded are local projections:
it reads only bowler and total_runs from the loaded frame. -/
def ecoLocalChart (b : Table) : Except String Chart :=
  match b.getCol "bowler" with
  | none => .error "KeyError: bowler"
  | some kcol =>
    match b.getCol "total_runs" with
    | none => .error "KeyError: total_runs"
    | some tcol =>
      .ok (.series "Top Economy Bowlers"
        ((sortBy (fun a b => decide (b.2 < a.2))
          ((sortedKeys kcol).map (fun k => (k, specEconomy kcol tcol k)))).take 20))

/-- The strike-rate block as the script body has it (dash.py lines
158-164): the ball_faced assignment followed by the aggregation. -/
def srBlock (b : Table) : Except String Chart :=
  srChart (addBallFaced b)

theorem length_valueCounts (col : List Val) :
    (valueCounts col).length = (encDistinct col).length := by
  unfold valueCounts
  rw [length_sortBy, List.length_map]

theorem encDistinct_toFinset (col : List Val) :
    (encDistinct col).toFinset =
      (col.filter (fun v => decide (v ≠ Val.vnull))).toFinset := by
  ext a
  simp [List.mem_toFinset, mem_encDistinct, List.mem_filter]

theorem length_encDistinct (col : List Val) :
    (encDistinct col).length =
      (col.filter (fun v => decide (v ≠ Val.vnull))).toFinset.card := by
  rw [← encDistinct_toFinset]
  exact (List.toFinset_card_of_nodup (nodup_encDistinct col)).symm

theorem sortedKeys_toFinset (col : List Val) :
    (sortedKeys col).toFinset =
      (col.filter (fun v => decide (v ≠ Val.vnull))).toFinset := by
  ext a
  simp [List.mem_toFinset, mem_sortedKeys, List.mem_filter]

theorem length_sortedKeys (col : List Val) :
    (sortedKeys col).length =
      (col.filter (fun v => decide (v ≠ Val.vnull))).toFinset.card := by
  rw [← sortedKeys_toFinset]
  exact (List.toFinset_card_of_nodup (nodup_sortedKeys col)).symm

theorem foldl_enc_filter (col : List Val) (acc : List Val) :
    (col.filter (fun v => decide (v ≠ Val.vnull))).foldl
        (fun acc v => if v = Val.vnull ∨ v ∈ acc then acc else acc ++ [v]) acc =
      col.foldl
        (fun acc v => if v = Val.vnull ∨ v ∈ acc then acc else acc ++ [v]) acc := by
  induction col generalizing acc with
  | nil => rfl
  | cons v vs ih =>
    by_cases hv : v = Val.vnull
    · rw [List.filter_cons, if_neg (by simp [hv])]
      simp only [List.foldl]
      rw [if_pos (Or.inl hv)]
      exact ih acc
    · rw [List.filter_cons, if_pos (by simp [hv])]
      simp only [List.foldl]
      exact ih _

theorem encDistinct_filter (col : List Val) :
    encDistinct (col.filter (fun v => decide (v ≠ Val.vnull))) =
      encDistinct col :=
  foldl_enc_filter col []

theorem countKey_filter_nonnull {k : Val} (hk : k ≠ Val.vnull) (col : List Val) :
    countKey (col.filter (fun v => decide (v ≠ Val.vnull))) k = countKey col k := by
  unfold countKey
  congr 1
  induction col with
  | nil => rfl
  | cons v vs ih =>
    by_cases hv : v = Val.vnull
    · rw [List.filter_cons, if_neg (by simp [hv]), List.filter_cons,
        if_neg (by simp [hv, Ne.symm hk]), ih]
    · rw [List.filter_cons, if_pos (by simp [hv])]
      by_cases hvk : v = k
      · rw [List.filter_cons, if_pos (by simp [hvk]), List.filter_cons,
          if_pos (by simp [hvk])]
        simp only [List.length_cons]
        rw [ih]
      · rw [List.filter_cons, if_neg (by simp [hvk]), List.filter_cons,
          if_neg (by simp [hvk]), ih]

theorem valueCounts_filter_nonnull (col : List Val) :
    valueCounts (col.filter (fun v => decide (v ≠ Val.vnull))) =
      valueCounts col := by
  unfold valueCounts
  rw [encDistinct_filter]
  congr 1
  apply List.map_congr_left
  intro k hk
  rw [countKey_filter_nonnull (mem_encDistinct.mp hk).2]

/-- C9: the is_wicket derivation (dash.py lines 62-63) is idempotent — an
already present is_wicket column is left untouched, deriving twice equals
deriving once, and where derived the column is 1 exactly on the rows whose
dismissal_kind cell is non-null, else 0. -/
theorem C9_is_wicket_idempotent (b : Table) :
    addIsWicket (addIsWicket b) = addIsWicket b ∧
    (b.hasCol "is_wicket" = true → addIsWicket b = b) ∧
    (∀ dc, b.hasCol "is_wicket" = false →
      b.getCol "dismissal_kind" = some dc →
      (addIsWicket b).getCol "is_wicket" =
        some (dc.map (fun v => Val.vint (if v = Val.vnull then 0 else 1)))) := by
  have huntouched : ∀ t : Table, t.hasCol "is_wicket" = true → addIsWicket t = t := by
    intro t ht
    unfold addIsWicket
    rw [if_neg (by simp [ht])]
  refine ⟨?_, huntouched b, ?_⟩
  · by_cases h : b.hasCol "is_wicket" = false
    · cases hd : b.getCol "dismissal_kind" with
      | none =>
        have hid : addIsWicket b = b := by
          unfold addIsWicket
          rw [if_pos h, hd]
        rw [hid]
        exact hid
      | some dc =>
        have hset : addIsWicket b = b.setCol "is_wicket"
            (dc.map (fun v => Val.vint (if v = Val.vnull then 0 else 1))) := by
          unfold addIsWicket
          rw [if_pos h, hd]
        rw [hset]
        exact huntouched _ (Table.hasCol_setCol_self b _ _)
    · have hb : b.hasCol "is_wicket" = true := by
        revert h
        cases b.hasCol "is_wicket" <;> simp
      rw [huntouched b hb]
      exact huntouched b hb
  · intro dc h hd
    have hset : addIsWicket b = b.setCol "is_wicket"
        (dc.map (fun v => Val.vint (if v = Val.vnull then 0 else 1))) := by
      unfold addIsWicket
      rw [if_pos h, hd]
    rw [hset, Table.getCol_setCol_self]

/-- Two-row balls frame with one dismissal, for the C9 witness. -/
def wB9 : Table := ⟨[("dismissal_kind", [Val.vnull, Val.vstr "bowled"])]⟩

/-- Witness for C9: the derivation hypotheses hold at `wB9` and the derived
column is [0, 1]. -/
theorem C9_is_wicket_idempotent_witness :
    wB9.hasCol "is_wicket" = false ∧
    (addIsWicket wB9).getCol "is_wicket" =
      some ([Val.vnull, Val.vstr "bowled"].map
        (fun v => Val.vint (if v = Val.vnull then 0 else 1))) :=
  ⟨by decide, (C9_is_wicket_idempotent wB9).2.2 _ (by decide) rfl⟩

/-- C5: with either source file missing, the program emits the two debug
lines carrying each file's existence flag (so the visible output identifies
exactly which file is missing), shows the error message, stops, and renders
no chart at all — no partial result set. -/
theorem C5_missing_source_halts (mE bE : Bool) (rawM rawB : Table)
    (h : (mE && bE) = false) :
    dashMain mE bE rawM rawB =
      (⟨mE, bE, some missingMsg⟩, ([], none)) := by
  unfold dashMain load_data
  rw [if_neg (by simp [h])]

/-- Witness for C5 with the matches file missing. -/
theorem C5_missing_source_halts_witness :
    ((false && true) = false) ∧
    dashMain false true ⟨[]⟩ ⟨[]⟩ =
      (⟨false, true, some missingMsg⟩, ([], none)) :=
  ⟨rfl, C5_missing_source_halts false true ⟨[]⟩ ⟨[]⟩ rfl⟩

/-- C8: top-20 truncation — the venue pipeline returns at most 20 rows,
and when at most 20 distinct non-null venues exist it returns exactly one
row per distinct venue (all available groups, without error); every other
head(20) pipeline likewise returns at most 20 rows whenever it returns at
all. -/
theorem C8_top20_truncation (m : Table) (vc : List Val)
    (hv : m.getCol "venue" = some vc) :
    (∃ d, venueChart m = .ok (.series "Top 20 Most Played Venues" d) ∧
      d.length ≤ 20 ∧
      ((vc.filter (fun v => decide (v ≠ Val.vnull))).toFinset.card ≤ 20 →
        d.length = (vc.filter (fun v => decide (v ≠ Val.vnull))).toFinset.card ∧
        ∀ k ∈ vc, k ≠ Val.vnull → ∃ p ∈ d, p.1 = k)) ∧
    (∀ t c, pomChart t = some c → ∃ ttl dd, c = Chart.series ttl dd ∧ dd.length ≤ 20) ∧
    (∀ t c, runsChart t = .ok c → ∃ ttl dd, c = Chart.series ttl dd ∧ dd.length ≤ 20) ∧
    (∀ t c, wkChart t = .ok c → ∃ ttl dd, c = Chart.series ttl dd ∧ dd.length ≤ 20) ∧
    (∀ t c, sixChart t = .ok c → ∃ ttl dd, c = Chart.series ttl dd ∧ dd.length ≤ 20) ∧
    (∀ t c, fourChart t = .ok c → ∃ ttl dd, c = Chart.series ttl dd ∧ dd.length ≤ 20) ∧
    (∀ t c, srChart t = .ok c → ∃ ttl dd, c = Chart.series ttl dd ∧ dd.length ≤ 20) ∧
    (∀ t c, ecoChart t = .ok c → ∃ ttl dd, c = Chart.series ttl dd ∧ dd.length ≤ 20) := by
  constructor
  · refine ⟨(valueCounts vc).take 20, ?_, ?_, ?_⟩
    · unfold venueChart
      rw [hv]
    · exact List.length_take_le 20 (valueCounts vc)
    · intro hcard
      have hlen : (valueCounts vc).length ≤ 20 := by
        rw [length_valueCounts, length_encDistinct]
        exact hcard
      have hfull : (valueCounts vc).take 20 = valueCounts vc :=
        List.take_of_length_le hlen
      constructor
      · rw [hfull, length_valueCounts, length_encDistinct]
      · intro k hk hkn
        refine ⟨(k, countKey vc k), ?_, rfl⟩
        rw [hfull]
        unfold valueCounts
        rw [mem_sortBy]
        exact List.mem_map_of_mem _ (mem_encDistinct.mpr ⟨hk, hkn⟩)
  constructor
  · intro t c h
    unfold pomChart at h
    cases h1 : t.getCol "player_of_match" with
    | none => rw [h1] at h; simp at h
    | some col =>
      rw [h1] at h
      have h2 : some (Chart.series "Top 20 Player of the Match Winners"
          ((valueCounts col).take 20)) = some c := h
      injection h2 with h3
      exact ⟨_, _, h3.symm, List.length_take_le 20 _⟩
  constructor
  · intro t c h
    unfold runsChart at h
    cases h1 : t.getCol "batsman" with
    | none => rw [h1] at h; simp at h
    | some kcol =>
      rw [h1] at h
      cases h2 : t.getCol "batsman_runs" with
      | none => rw [h2] at h; simp at h
      | some rcol =>
        rw [h2] at h
        simp only [Except.ok.injEq] at h
        exact ⟨_, _, h.symm, List.length_take_le 20 _⟩
  constructor
  · intro t c h
    unfold wkChart at h
    cases h1 : t.getCol "is_wicket" with
    | none => rw [h1] at h; simp at h
    | some wcol =>
      rw [h1] at h
      cases h2 : t.getCol "bowler" with
      | none => rw [h2] at h; simp at h
      | some bcol =>
        rw [h2] at h
        simp only [Except.ok.injEq] at h
        exact ⟨_, _, h.symm, List.length_take_le 20 _⟩
  constructor
  · intro t c h
    unfold sixChart at h
    cases h1 : t.getCol "batsman" with
    | none => rw [h1] at h; simp at h
    | some kcol =>
      rw [h1] at h
      cases h2 : t.getCol "is_four" with
      | none => rw [h2] at h; simp at h
      | some fcol =>
        rw [h2] at h
        cases h3 : t.getCol "is_six" with
        | none => rw [h3] at h; simp at h
        | some scol =>
          rw [h3] at h
          simp only [Except.ok.injEq] at h
          refine ⟨_, _, h.symm, ?_⟩
          rw [List.length_map]
          exact List.length_take_le 20 _
  constructor
  · intro t c h
    unfold fourChart at h
    cases h1 : t.getCol "batsman" with
    | none => rw [h1] at h; simp at h
    | some kcol =>
      rw [h1] at h
      cases h2 : t.getCol "is_four" with
      | none => rw [h2] at h; simp at h
      | some fcol =>
        rw [h2] at h
        cases h3 : t.getCol "is_six" with
        | none => rw [h3] at h; simp at h
        | some scol =>
          rw [h3] at h
          simp only [Except.ok.injEq] at h
          refine ⟨_, _, h.symm, ?_⟩
          rw [List.length_map]
          exact List.length_take_le 20 _
  constructor
  · intro t c h
    unfold srChart at h
    cases h1 : t.getCol "batsman" with
    | none => rw [h1] at h; simp at h
    | some kcol =>
      rw [h1] at h
      cases h2 : t.getCol "batsman_runs" with
      | none => rw [h2] at h; simp at h
      | some rcol =>
        rw [h2] at h
        cases h3 : t.getCol "ball_faced" with
        | none => rw [h3] at h; simp at h
        | some fcol =>
          rw [h3] at h
          simp only [Except.ok.injEq] at h
          refine ⟨_, _, h.symm, ?_⟩
          rw [List.length_map]
          exact List.length_take_le 20 _
  · intro t c h
    unfold ecoChart at h
    cases h1 : t.getCol "bowler" with
    | none => rw [h1] at h; simp at h
    | some kcol =>
      rw [h1] at h
      cases h2 : t.getCol "runs_conceded" with
      | none => rw [h2] at h; simp at h
      | some ccol =>
        rw [h2] at h
        cases h3 : t.getCol "ball_faced" with
        | none => rw [h3] at h; simp at h
        | some fcol =>
          rw [h3] at h
          simp only [Except.ok.injEq] at h
          refine ⟨_, _, h.symm, ?_⟩
          rw [List.length_map]
          exact List.length_take_le 20 _

/-- Matches frame with five distinct venues over seven rows, for the C8
witness. -/
def wM8 : Table :=
  ⟨[("venue", [Val.vstr "Eden", Val.vstr "Wankhede", Val.vstr "Eden",
    Val.vstr "Chinnaswamy", Val.vstr "Kotla", Val.vstr "Chepauk",
    Val.vstr "Kotla"])]⟩

/-- Witness for C8: five distinct venues yield exactly five rows, and the
general bound instantiates. -/
theorem C8_top20_truncation_witness :
    wM8.getCol "venue" = some [Val.vstr "Eden", Val.vstr "Wankhede",
      Val.vstr "Eden", Val.vstr "Chinnaswamy", Val.vstr "Kotla",
      Val.vstr "Chepauk", Val.vstr "Kotla"] ∧
    (∃ d, venueChart wM8 = .ok (.series "Top 20 Most Played Venues" d) ∧
      d.length = 5) ∧
    (∃ d, venueChart wM8 = .ok (.series "Top 20 Most Played Venues" d) ∧
      d.length ≤ 20) := by
  refine ⟨rfl, ⟨[(Val.vstr "Eden", 2), (Val.vstr "Kotla", 2),
    (Val.vstr "Wankhede", 1), (Val.vstr "Chinnaswamy", 1),
    (Val.vstr "Chepauk", 1)], by rfl, rfl⟩, ?_⟩
  rcases (C8_top20_truncation wM8 _ rfl).1 with ⟨d, hd, hlen, _⟩
  exact ⟨d, hd, hlen⟩

/-- C10: value_counts-based pipelines exclude null group keys entirely —
the winners output equals the output over the table with null-winner rows
removed (so no-result matches contribute to no team's count), null keys
never appear, per-key counts are unchanged by dropping null rows, and the
player-of-match output behaves the same way. -/
theorem C10_null_keys_excluded (m : Table) (wc pc : List Val)
    (hw : m.getCol "winner" = some wc)
    (hp : m.getCol "player_of_match" = some pc) :
    (winnersChart m = .ok (.series "Most Successful Teams"
        (valueCounts (wc.filter (fun v => decide (v ≠ Val.vnull))))) ∧
      (∀ p ∈ valueCounts wc, p.1 ≠ Val.vnull) ∧
      (∀ k, k ≠ Val.vnull →
        countKey (wc.filter (fun v => decide (v ≠ Val.vnull))) k =
          countKey wc k)) ∧
    (pomChart m = some (.series "Top 20 Player of the Match Winners"
        ((valueCounts (pc.filter (fun v => decide (v ≠ Val.vnull)))).take 20)) ∧
      (∀ p ∈ (valueCounts pc).take 20, p.1 ≠ Val.vnull)) := by
  have hkeys : ∀ (col : List Val), ∀ p ∈ valueCounts col, p.1 ≠ Val.vnull := by
    intro col p hm
    unfold valueCounts at hm
    rw [mem_sortBy] at hm
    rcases List.mem_map.mp hm with ⟨k, hk, rfl⟩
    exact (mem_encDistinct.mp hk).2
  refine ⟨⟨?_, hkeys wc, ?_⟩, ?_, ?_⟩
  · unfold winnersChart
    rw [hw, valueCounts_filter_nonnull]
  · intro k hk
    exact countKey_filter_nonnull hk wc
  · unfold pomChart
    rw [hp, valueCounts_filter_nonnull]
    rfl
  · intro p hm
    exact hkeys pc p ((List.take_sublist 20 _).subset hm)

/-- Matches frame with a null winner (no-result match) and null
player-of-match cells, for the C10 witness. -/
def wM10 : Table :=
  ⟨[("winner", [Val.vstr "CSK", Val.vnull, Val.vstr "CSK"]),
    ("player_of_match", [Val.vnull, Val.vstr "AB", Val.vnull])]⟩

/-- Witness for C10 at `wM10`: hypotheses hold and the null-dropping
equalities instantiate. -/
theorem C10_null_keys_excluded_witness :
    wM10.getCol "winner" = some [Val.vstr "CSK", Val.vnull, Val.vstr "CSK"] ∧
    wM10.getCol "player_of_match" =
      some [Val.vnull, Val.vstr "AB", Val.vnull] ∧
    winnersChart wM10 = .ok (.series "Most Successful Teams"
      (valueCounts ([Val.vstr "CSK", Val.vnull, Val.vstr "CSK"].filter
        (fun v => decide (v ≠ Val.vnull))))) :=
  ⟨rfl, rfl, ((C10_null_keys_excluded wM10 _ _ rfl rfl).1).1⟩

theorem chartV_ok (bb : Table) (cs : List Chart) (c : Chart) :
    DState.chartV ⟨bb, cs, none⟩ (.ok c) = ⟨bb, cs ++ [c], none⟩ := rfl

theorem chartV_err (bb : Table) (cs : List Chart) (e : String) :
    DState.chartV ⟨bb, cs, none⟩ (.error e) = ⟨bb, cs, some e⟩ := rfl

theorem chartO_some (bb : Table) (cs : List Chart) (c : Chart) :
    DState.chartO ⟨bb, cs, none⟩ (some c) = ⟨bb, cs ++ [c], none⟩ := rfl

theorem chartO_none (bb : Table) (cs : List Chart) :
    DState.chartO ⟨bb, cs, none⟩ none = ⟨bb, cs, none⟩ := rfl

theorem chartB_eval (bb : Table) (cs : List Chart)
    (f : Table → Except String Chart) :
    DState.chartB ⟨bb, cs, none⟩ f = DState.chartV ⟨bb, cs, none⟩ (f bb) := rfl

theorem chartOB_eval (bb : Table) (cs : List Chart) (f : Table → Option Chart) :
    DState.chartOB ⟨bb, cs, none⟩ f = DState.chartO ⟨bb, cs, none⟩ (f bb) := rfl

theorem mutB_eval (bb b2 : Table) (cs : List Chart)
    (f : Table → Except String Table) (h : f bb = .ok b2) :
    DState.mutB ⟨bb, cs, none⟩ f = ⟨b2, cs, none⟩ := by
  unfold DState.mutB
  rw [h]

theorem mutP_eval (bb : Table) (cs : List Chart) (f : Table → Table) :
    DState.mutP ⟨bb, cs, none⟩ f = ⟨f bb, cs, none⟩ := rfl

theorem chartV_stop (bb : Table) (cs : List Chart) (e : String)
    (r : Except String Chart) :
    DState.chartV ⟨bb, cs, some e⟩ r = ⟨bb, cs, some e⟩ := rfl

theorem chartB_stop (bb : Table) (cs : List Chart) (e : String)
    (f : Table → Except String Chart) :
    DState.chartB ⟨bb, cs, some e⟩ f = ⟨bb, cs, some e⟩ := rfl

theorem chartO_stop (bb : Table) (cs : List Chart) (e : String)
    (r : Option Chart) :
    DState.chartO ⟨bb, cs, some e⟩ r = ⟨bb, cs, some e⟩ := rfl

theorem chartOB_stop (bb : Table) (cs : List Chart) (e : String)
    (f : Table → Option Chart) :
    DState.chartOB ⟨bb, cs, some e⟩ f = ⟨bb, cs, some e⟩ := rfl

theorem mutB_stop (bb : Table) (cs : List Chart) (e : String)
    (f : Table → Except String Table) :
    DState.mutB ⟨bb, cs, some e⟩ f = ⟨bb, cs, some e⟩ := rfl

theorem mutP_stop (bb : Table) (cs : List Chart) (e : String)
    (f : Table → Table) :
    DState.mutP ⟨bb, cs, some e⟩ f = ⟨bb, cs, some e⟩ := rfl

/-- Matches frame carrying the unguarded tab-1 columns (season, venue,
winner) and none of the guarded ones, for the C1 and C2 concrete runs. -/
def wM1 : Table :=
  ⟨[("season", [Val.vint 2008, Val.vint 2008, Val.vint 2009]),
    ("venue", [Val.vstr "Eden", Val.vstr "Wankhede", Val.vstr "Eden"]),
    ("winner", [Val.vstr "CSK", Val.vnull, Val.vstr "MI"])]⟩

/-- Loaded balls frame lacking both dismissal_kind and is_wicket while
providing batsman, batsman_runs, bowler, total_runs and over. -/
def wB1 : Table :=
  ⟨[("batsman", [Val.vstr "Bob", Val.vstr "Ann", Val.vstr "Bob"]),
    ("batsman_runs", [Val.vint 4, Val.vint 6, Val.vint 1]),
    ("bowler", [Val.vstr "X", Val.vstr "Y", Val.vstr "X"]),
    ("total_runs", [Val.vint 4, Val.vint 7, Val.vint 1]),
    ("over", [Val.vint 1, Val.vint 1, Val.vint 2])]⟩

/-- The same balls frame with is_wicket present, i.e. a fully loaded balls
frame as load_data derives it. -/
def wB2 : Table :=
  ⟨wB1.cols ++ [("is_wicket", [Val.vint 0, Val.vint 1, Val.vint 0])]⟩

/-- Counterexample to C1 as stated: on a loaded Balls frame lacking
dismissal_kind and is_wicket, the run is aborted by the uncaught KeyError
of the unguarded wicket pipeline, and the runs-per-over pipeline renders
nothing — contrary to the claim that missing-column pipelines are omitted
without aborting the others and that runs-per-over still produces its
result. -/
theorem C1_counterexample :
    (runDash wM1 wB1).2 = some "KeyError: is_wicket" ∧
    (runDash wM1 wB1).1.map Chart.title =
      ["Matches Played Per Season", "Top 20 Most Played Venues",
        "Most Successful Teams", "Top 20 Run Scorers"] ∧
    ("Runs Scored Per Over" ∉ (runDash wM1 wB1).1.map Chart.title) ∧
    ("Wickets Per Over" ∉ (runDash wM1 wB1).1.map Chart.title) := by
  have ht : (runDash wM1 wB1).1.map Chart.title =
      ["Matches Played Per Season", "Top 20 Most Played Venues",
        "Most Successful Teams", "Top 20 Run Scorers"] := by
    with_unfolding_all rfl
  refine ⟨by with_unfolding_all rfl, ht, ?_, ?_⟩ <;> rw [ht] <;> decide

/-- C1 amended: only the explicitly guarded pipelines are skipped
gracefully when their column is absent; the unguarded ones raise, aborting
every later pipeline. For any matches frame providing season, venue and
winner (and no guarded tab-1/tab-2 column) and any balls frame providing
batsman and batsman_runs but no is_wicket column: the run-scorer pipeline,
rendered before the failure point, still produces its output; the wicket
pipeline raises KeyError is_wicket; the runs-per-over and wickets-per-over
pipelines render nothing; and the guarded dismissal breakdown is skipped
without error on any frame lacking dismissal_kind. -/
theorem C1_amended (m b : Table) (sc vc wc kc rc : List Val)
    (hs : m.getCol "season" = some sc)
    (hv : m.getCol "venue" = some vc)
    (hw : m.getCol "winner" = some wc)
    (h3 : m.getCol "win_by_runs" = none)
    (h4 : m.getCol "win_by_wickets" = none)
    (h6 : m.getCol "player_of_match" = none)
    (hk : b.getCol "batsman" = some kc)
    (hr : b.getCol "batsman_runs" = some rc)
    (hiw : b.getCol "is_wicket" = none) :
    (runDash m b).2 = some "KeyError: is_wicket" ∧
    (Chart.series "Top 20 Run Scorers"
      ((sortBy (fun a b => decide (a.2 < b.2))
        ((sortedKeys kc).map (fun k => (k, colSumBy kc rc k)))).take 20)
      ∈ (runDash m b).1) ∧
    ("Runs Scored Per Over" ∉ (runDash m b).1.map Chart.title) ∧
    ("Wickets Per Over" ∉ (runDash m b).1.map Chart.title) ∧
    (∀ t : Table, t.getCol "dismissal_kind" = none → dismissalChart t = none) := by
  have e1 : matchesPerSeason m =
      .ok (Chart.series "Matches Played Per Season" (sizeSeries sc)) := by
    unfold matchesPerSeason
    rw [hs]
  have e2 : venueChart m =
      .ok (Chart.series "Top 20 Most Played Venues" ((valueCounts vc).take 20)) := by
    unfold venueChart
    rw [hv]
  have e3 : winByRunsHist m = none := by
    unfold winByRunsHist
    rw [h3]
    rfl
  have e4 : winByWicketsHist m = none := by
    unfold winByWicketsHist
    rw [h4]
    rfl
  have e5 : winnersChart m =
      .ok (Chart.series "Most Successful Teams" (valueCounts wc)) := by
    unfold winnersChart
    rw [hw]
  have e6 : pomChart m = none := by
    unfold pomChart
    rw [h6]
    rfl
  have e7 : runsChart b = .ok (Chart.series "Top 20 Run Scorers"
      ((sortBy (fun a b => decide (a.2 < b.2))
        ((sortedKeys kc).map (fun k => (k, colSumBy kc rc k)))).take 20)) := by
    unfold runsChart
    rw [hk, hr]
  have e8 : wkChart b = .error "KeyError: is_wicket" := by
    unfold wkChart
    rw [hiw]
  have hrun : runDash m b =
      ([Chart.series "Matches Played Per Season" (sizeSeries sc),
        Chart.series "Top 20 Most Played Venues" ((valueCounts vc).take 20),
        Chart.series "Most Successful Teams" (valueCounts wc),
        Chart.series "Top 20 Run Scorers"
          ((sortBy (fun a b => decide (a.2 < b.2))
            ((sortedKeys kc).map (fun k => (k, colSumBy kc rc k)))).take 20)],
       some "KeyError: is_wicket") := by
    simp only [runDash, chartB_eval, e1, e2, e3, e4, e5, e6, e7, e8,
      chartV_ok, chartV_err, chartO_none, chartB_stop, chartO_stop,
      chartOB_stop, mutB_stop, mutP_stop, chartV_stop,
      List.nil_append, List.cons_append]
  refine ⟨?_, ?_, ?_, ?_, ?_⟩
  · rw [hrun]
  · rw [hrun]
    simp
  · rw [hrun]
    simp [Chart.title]
  · rw [hrun]
    simp [Chart.title]
  · intro t ht
    unfold dismissalChart
    rw [ht]
    rfl

/-- Witness for the amended C1 at the concrete frames. -/
theorem C1_amended_witness :
    wB1.getCol "is_wicket" = none ∧
    (runDash wM1 wB1).2 = some "KeyError: is_wicket" :=
  ⟨rfl, (C1_amended wM1 wB1 _ _ _ _ _ rfl rfl rfl rfl rfl rfl rfl rfl rfl).1⟩

/-- Counterexample to C2 as stated: on fully loaded frames, the economy
pipeline (dash.py lines 184-191) evaluated alone as a function of the
loaded balls frame raises KeyError ball_faced — its ball_faced input is
created by the batting tab, not locally — while the same pipeline run in
catalog order produces a chart; so its result as a pure function of the
two loaded tables is not the catalog-order result. -/
theorem C2_counterexample :
    ecoBlock wB2 = .error "KeyError: ball_faced" ∧
    (runDash wM1 wB2).1.filter
        (fun c => decide (c.title = "Top Economy Bowlers")) =
      [Chart.series "Top Economy Bowlers"
        [(Val.vstr "X", 15), (Val.vstr "Y", 42)]] ∧
    (runDash wM1 wB2).2 = none := by
  refine ⟨by rfl, by with_unfolding_all rfl, by with_unfolding_all rfl⟩

/-- After the batting tab's ball_faced assignment, the script's economy
block computes exactly the locally-derived economy pipeline (shared lemma
behind the C2 and C7 theorems). -/
theorem ecoBlock_eq_localChart (b : Table) (kc tc : List Val)
    (hbw : b.getCol "bowler" = some kc)
    (htr : b.getCol "total_runs" = some tc)
    (hwf : b.wf) :
    ecoBlock (addBallFaced b) = ecoLocalChart b := by
  have hlen : kc.length = b.nrows := Table.length_eq_nrows hwf hbw
  have hb1tr : (addBallFaced b).getCol "total_runs" = some tc := by
    unfold addBallFaced
    rw [Table.getCol_setCol_ne _ _ (by decide), htr]
  have hrc : addRunsConceded (addBallFaced b) =
      .ok ((addBallFaced b).setCol "runs_conceded" tc) := by
    unfold addRunsConceded
    rw [hb1tr]
  unfold ecoBlock
  rw [hrc]
  show ecoChart ((addBallFaced b).setCol "runs_conceded" tc) = ecoLocalChart b
  have hg1 : ((addBallFaced b).setCol "runs_conceded" tc).getCol "bowler" = some kc := by
    rw [Table.getCol_setCol_ne _ _ (by decide)]
    unfold addBallFaced
    rw [Table.getCol_setCol_ne _ _ (by decide), hbw]
  have hg2 : ((addBallFaced b).setCol "runs_conceded" tc).getCol "runs_conceded" =
      some tc := Table.getCol_setCol_self _ _ _
  have hg3 : ((addBallFaced b).setCol "runs_conceded" tc).getCol "ball_faced" =
      some (List.replicate b.nrows (Val.vint 1)) := by
    rw [Table.getCol_setCol_ne _ _ (by decide)]
    unfold addBallFaced
    exact Table.getCol_setCol_self _ _ _
  unfold ecoChart ecoLocalChart
  simp only [hg1, hg2, hg3, hbw, htr]
  have hcount : ∀ k, colCountBy kc (List.replicate b.nrows (Val.vint 1)) k =
      countKey kc k := by
    intro k
    rw [← hlen]
    exact colCountBy_replicate kc k
  have hlist : (sortedKeys kc).map (fun k =>
      (k, colSumBy kc tc k, colCountBy kc (List.replicate b.nrows (Val.vint 1)) k,
        colSumBy kc tc k /
          (colCountBy kc (List.replicate b.nrows (Val.vint 1)) k / 6))) =
      (sortedKeys kc).map (fun k =>
      (k, colSumBy kc tc k, countKey kc k, specEconomy kc tc k)) := by
    apply List.map_congr_left
    intro k hk
    rw [hcount k]
    rfl
  rw [hlist]
  have hproj : ((sortBy
      (fun a b => decide (b.2.2.2 < a.2.2.2))
      ((sortedKeys kc).map (fun k =>
        (k, colSumBy kc tc k, countKey kc k, specEconomy kc tc k)))).take 20).map
      (fun r => (r.1, r.2.2.2)) =
      (sortBy (fun a b => decide (b.2 < a.2))
        ((sortedKeys kc).map (fun k => (k, specEconomy kc tc k)))).take 20 := by
    rw [List.map_take]
    congr 1
    rw [@map_sortBy (Val × ℚ × ℚ × ℚ) (Val × ℚ)
      (fun r => (r.1, r.2.2.2))
      (fun a b => decide (b.2.2.2 < a.2.2.2))
      (fun a b => decide (b.2 < a.2))
      (fun a b => rfl)
      ((sortedKeys kc).map
        (fun k => (k, colSumBy kc tc k, countKey kc k, specEconomy kc tc k))),
      List.map_map]
    rfl
  rw [hproj]

/-- C2 amended: the derived columns are written onto the shared balls
frame, and ball_faced — created in the batting tab — is reused by the
economy pipeline, so that pipeline is not a pure function of the loaded
tables. The coupling is benign value-wise: after the ball_faced
assignment, the script's economy block equals the economy pipeline with
pipeline-local derivations (runs_conceded a copy of total_runs, ball_faced
counting each bowler's deliveries). -/
theorem C2_amended (b : Table) (kc tc : List Val)
    (hbw : b.getCol "bowler" = some kc)
    (htr : b.getCol "total_runs" = some tc)
    (hwf : b.wf) :
    ecoBlock (addBallFaced b) = ecoLocalChart b :=
  ecoBlock_eq_localChart b kc tc hbw htr hwf

/-- Witness for the amended C2 at the concrete loaded frames: the
catalog-order economy block equals the locally-derived economy pipeline,
and both produce the expected data. -/
theorem C2_amended_witness :
    wB2.getCol "bowler" =
      some [Val.vstr "X", Val.vstr "Y", Val.vstr "X"] ∧
    wB2.wf ∧
    ecoBlock (addBallFaced wB2) = ecoLocalChart wB2 ∧
    ecoLocalChart wB2 = .ok (.series "Top Economy Bowlers"
      [(Val.vstr "X", 15), (Val.vstr "Y", 42)]) :=
  ⟨rfl, by intro p hp; fin_cases hp <;> rfl,
    C2_amended wB2 _ _ rfl rfl (by intro p hp; fin_cases hp <;> rfl),
    by with_unfolding_all rfl⟩

/-- Two-row balls frame whose encounter order is Bob before Ann, with
equal run sums, for the C6 counterexample. -/
def wB6 : Table :=
  ⟨[("batsman", [Val.vstr "Bob", Val.vstr "Ann"]),
    ("batsman_runs", [Val.vint 5, Val.vint 5])]⟩

/-- Counterexample to C6 as stated: with equal metric values, the
run-scorer output lists Ann before Bob although the table's row encounter
order is Bob before Ann — ties do not retain the original encounter
order. -/
theorem C6_counterexample :
    wB6.getCol "batsman" = some [Val.vstr "Bob", Val.vstr "Ann"] ∧
    runsChart wB6 = .ok (.series "Top 20 Run Scorers"
      [(Val.vstr "Ann", 5), (Val.vstr "Bob", 5)]) ∧
    ([(Val.vstr "Ann", (5 : ℚ)), (Val.vstr "Bob", 5)] ≠
      [(Val.vstr "Bob", 5), (Val.vstr "Ann", 5)]) :=
  ⟨rfl, by with_unfolding_all rfl, by simp⟩

/-- C6 amended: the metric sort is stable (as modelled) and imposes no
secondary key, but the groups enter it in ascending group-key order — the
groupby pre-sorts keys — so tied groups appear in ascending key order, not
in the table's original row encounter order. Stated for the cited top
run-scorers pipeline: its output is descending in the metric, and tied
entries ascend in the group key. -/
theorem C6_amended (b : Table) (kc rc : List Val)
    (hk : b.getCol "batsman" = some kc)
    (hr : b.getCol "batsman_runs" = some rc) :
    ∃ d, runsChart b = .ok (.series "Top 20 Run Scorers" d) ∧
      d.Pairwise (fun p q => q.2 ≤ p.2) ∧
      d.Pairwise (fun p q => p.2 = q.2 → Val.ltb p.1 q.1 = true) := by
  refine ⟨_, by unfold runsChart; rw [hk, hr], ?_, ?_⟩
  · apply List.Pairwise.sublist (List.take_sublist 20 _)
    have hs := @pairwise_sortBy_sorted (Val × ℚ)
      (fun a b => decide (a.2 < b.2))
      (fun a b h => by
        simp only [decide_eq_true_eq] at h
        simp only [decide_eq_false_iff_not]
        exact lt_asymm h)
      (fun a b c h1 h2 => by
        simp only [decide_eq_false_iff_not, not_lt] at h1 h2 ⊢
        exact le_trans h2 h1)
      ((sortedKeys kc).map (fun k => (k, colSumBy kc rc k)))
    apply hs.imp
    intro p q hpq
    simp only [decide_eq_false_iff_not, not_lt] at hpq
    exact hpq
  · apply List.Pairwise.sublist (List.take_sublist 20 _)
    have hin : ((sortedKeys kc).map
        (fun k => (k, colSumBy kc rc k))).Pairwise
        (fun p q : Val × ℚ => Val.ltb p.1 q.1 = true) := by
      rw [List.pairwise_map]
      exact pairwise_sortedKeys kc
    have ht := @pairwise_sortBy_tie (Val × ℚ)
      (fun a b => decide (a.2 < b.2)) _ _ hin
    apply ht.imp
    intro p q hpq heq
    exact hpq ⟨by simp [heq], by simp [heq]⟩

/-- Witness for the amended C6 at the tie frame `wB6`. -/
theorem C6_amended_witness :
    wB6.getCol "batsman" = some [Val.vstr "Bob", Val.vstr "Ann"] ∧
    ∃ d, runsChart wB6 = .ok (.series "Top 20 Run Scorers" d) ∧
      d.Pairwise (fun p q => q.2 ≤ p.2) ∧
      d.Pairwise (fun p q => p.2 = q.2 → Val.ltb p.1 q.1 = true) :=
  ⟨rfl, C6_amended wB6 _ _ rfl rfl⟩

theorem Table.hasCol_setCol_ne (t : Table) {c c' : String} (vs : List Val)
    (h : c' ≠ c) : (t.setCol c vs).hasCol c' = t.hasCol c' := by
  unfold Table.hasCol
  rw [Table.getCol_setCol_ne t vs h]

/-- C3: the strike-rate pipeline (dash.py lines 158-164, the ball_faced
assignment included) returns per batsman exactly the spec formula
100 × sum(batsman_runs) / count(deliveries faced), sorted descending by
strike rate, with exactly min(#distinct batsmen, 20) rows, and applies no
minimum-balls-faced filter: when at most 20 distinct batsmen exist, every
batsman of the table appears in the output. -/
theorem C3_strike_rate (b : Table) (kc rc : List Val)
    (hk : b.getCol "batsman" = some kc)
    (hr : b.getCol "batsman_runs" = some rc)
    (hwf : b.wf) :
    ∃ d, srBlock b =
        .ok (.series "Highest Strike Rate (Min Balls Faced = 200)" d) ∧
      (∀ p ∈ d, p.2 = specStrikeRate kc rc p.1) ∧
      d.Pairwise (fun p q => q.2 ≤ p.2) ∧
      d.length =
        min ((kc.filter (fun v => decide (v ≠ Val.vnull))).toFinset.card) 20 ∧
      (∀ k ∈ kc, k ≠ Val.vnull →
        (kc.filter (fun v => decide (v ≠ Val.vnull))).toFinset.card ≤ 20 →
        ∃ p ∈ d, p.1 = k) := by
  have hlen : kc.length = b.nrows := Table.length_eq_nrows hwf hk
  have hk2 : (addBallFaced b).getCol "batsman" = some kc := by
    unfold addBallFaced
    rw [Table.getCol_setCol_ne _ _ (by decide), hk]
  have hr2 : (addBallFaced b).getCol "batsman_runs" = some rc := by
    unfold addBallFaced
    rw [Table.getCol_setCol_ne _ _ (by decide), hr]
  have hf2 : (addBallFaced b).getCol "ball_faced" =
      some (List.replicate b.nrows (Val.vint 1)) :=
    Table.getCol_setCol_self _ _ _
  have hcount : ∀ k, colCountBy kc (List.replicate b.nrows (Val.vint 1)) k =
      countKey kc k := by
    intro k
    rw [← hlen]
    exact colCountBy_replicate kc k
  refine ⟨_, by unfold srBlock srChart; simp only [hk2, hr2, hf2]; rfl,
    ?_, ?_, ?_, ?_⟩
  · intro p hp
    rcases List.mem_map.mp hp with ⟨r, hrt, rfl⟩
    have hrs : r ∈ sortBy (fun a b => decide (a.2.2.2 < b.2.2.2))
        ((sortedKeys kc).map (fun k =>
          (k, colSumBy kc rc k,
            colCountBy kc (List.replicate b.nrows (Val.vint 1)) k,
            colSumBy kc rc k /
              colCountBy kc (List.replicate b.nrows (Val.vint 1)) k * 100))) :=
      (List.take_sublist 20 _).subset hrt
    rcases List.mem_map.mp (mem_sortBy.mp hrs) with ⟨k, hkk, rfl⟩
    simp only
    rw [hcount k]
    unfold specStrikeRate
    ring
  · rw [List.pairwise_map]
    apply List.Pairwise.sublist (List.take_sublist 20 _)
    have hs := @pairwise_sortBy_sorted (Val × ℚ × ℚ × ℚ)
      (fun a b => decide (a.2.2.2 < b.2.2.2))
      (fun a b h => by
        simp only [decide_eq_true_eq] at h
        simp only [decide_eq_false_iff_not]
        exact lt_asymm h)
      (fun a b c h1 h2 => by
        simp only [decide_eq_false_iff_not, not_lt] at h1 h2 ⊢
        exact le_trans h2 h1)
      ((sortedKeys kc).map (fun k =>
        (k, colSumBy kc rc k,
          colCountBy kc (List.replicate b.nrows (Val.vint 1)) k,
          colSumBy kc rc k /
            colCountBy kc (List.replicate b.nrows (Val.vint 1)) k * 100)))
    apply hs.imp
    intro p q hpq
    simp only [decide_eq_false_iff_not, not_lt] at hpq
    exact hpq
  · rw [List.length_map, List.length_take, length_sortBy, List.length_map,
      length_sortedKeys]
    omega
  · intro k hkk hkn hcard
    have hfull : (sortBy (fun a b : Val × ℚ × ℚ × ℚ => decide (a.2.2.2 < b.2.2.2))
        ((sortedKeys kc).map (fun k =>
          (k, colSumBy kc rc k,
            colCountBy kc (List.replicate b.nrows (Val.vint 1)) k,
            colSumBy kc rc k /
              colCountBy kc (List.replicate b.nrows (Val.vint 1)) k * 100)))).length ≤ 20 := by
      rw [length_sortBy, List.length_map, length_sortedKeys]
      exact hcard
    rw [List.take_of_length_le hfull]
    refine ⟨_, List.mem_map_of_mem _ (mem_sortBy.mpr
      (List.mem_map_of_mem _ (mem_sortedKeys.mpr ⟨hkk, hkn⟩))), rfl⟩

/-- Two-delivery balls frame whose single batsman scores 50 runs off 2
balls, for the C3 witness. -/
def wB3 : Table :=
  ⟨[("batsman", [Val.vstr "K", Val.vstr "K"]),
    ("batsman_runs", [Val.vint 46, Val.vint 4])]⟩

/-- Witness for C3: at `wB3` the hypotheses hold, the theorem
instantiates, and the unguarded small-sample batsman tops the chart with
strike rate 2500. -/
theorem C3_strike_rate_witness :
    wB3.getCol "batsman" = some [Val.vstr "K", Val.vstr "K"] ∧
    (∃ d, srBlock wB3 =
        .ok (.series "Highest Strike Rate (Min Balls Faced = 200)" d) ∧
      (∀ p ∈ d, p.2 = specStrikeRate [Val.vstr "K", Val.vstr "K"]
        [Val.vint 46, Val.vint 4] p.1) ∧
      d.Pairwise (fun p q => q.2 ≤ p.2) ∧
      d.length = min (([Val.vstr "K", Val.vstr "K"].filter
        (fun v => decide (v ≠ Val.vnull))).toFinset.card) 20 ∧
      (∀ k ∈ [Val.vstr "K", Val.vstr "K"], k ≠ Val.vnull →
        (([Val.vstr "K", Val.vstr "K"].filter
          (fun v => decide (v ≠ Val.vnull))).toFinset.card ≤ 20) →
        ∃ p ∈ d, p.1 = k)) ∧
    srBlock wB3 = .ok (.series "Highest Strike Rate (Min Balls Faced = 200)"
      [(Val.vstr "K", 2500)]) :=
  ⟨rfl, C3_strike_rate wB3 _ _ rfl rfl (by intro p hp; fin_cases hp <;> rfl),
    by with_unfolding_all rfl⟩

/-- C7: in its catalog position (after the batting tab's ball_faced
assignment), the economy pipeline returns per bowler exactly the spec
formula sum(total_runs) / (count(deliveries bowled) / 6), sorted ascending
(lower economy first), with exactly min(#distinct bowlers, 20) rows; when
at most 20 distinct bowlers exist every bowler appears. -/
theorem C7_economy (b : Table) (kc tc : List Val)
    (hbw : b.getCol "bowler" = some kc)
    (htr : b.getCol "total_runs" = some tc)
    (hwf : b.wf) :
    ∃ d, ecoBlock (addBallFaced b) = .ok (.series "Top Economy Bowlers" d) ∧
      (∀ p ∈ d, p.2 = specEconomy kc tc p.1) ∧
      d.Pairwise (fun p q => p.2 ≤ q.2) ∧
      d.length =
        min ((kc.filter (fun v => decide (v ≠ Val.vnull))).toFinset.card) 20 ∧
      (∀ k ∈ kc, k ≠ Val.vnull →
        (kc.filter (fun v => decide (v ≠ Val.vnull))).toFinset.card ≤ 20 →
        ∃ p ∈ d, p.1 = k) := by
  rw [ecoBlock_eq_localChart b kc tc hbw htr hwf]
  refine ⟨_, by unfold ecoLocalChart; rw [hbw, htr], ?_, ?_, ?_, ?_⟩
  · intro p hp
    have hps : p ∈ sortBy (fun a b : Val × ℚ => decide (b.2 < a.2))
        ((sortedKeys kc).map (fun k => (k, specEconomy kc tc k))) :=
      (List.take_sublist 20 _).subset hp
    rcases List.mem_map.mp (mem_sortBy.mp hps) with ⟨k, hkk, rfl⟩
    rfl
  · apply List.Pairwise.sublist (List.take_sublist 20 _)
    have hs := @pairwise_sortBy_sorted (Val × ℚ)
      (fun a b => decide (b.2 < a.2))
      (fun a b h => by
        simp only [decide_eq_true_eq] at h
        simp only [decide_eq_false_iff_not]
        exact lt_asymm h)
      (fun a b c h1 h2 => by
        simp only [decide_eq_false_iff_not, not_lt] at h1 h2 ⊢
        exact le_trans h1 h2)
      ((sortedKeys kc).map (fun k => (k, specEconomy kc tc k)))
    apply hs.imp
    intro p q hpq
    simp only [decide_eq_false_iff_not, not_lt] at hpq
    exact hpq
  · rw [List.length_take, length_sortBy, List.length_map, length_sortedKeys]
    omega
  · intro k hkk hkn hcard
    have hfull : (sortBy (fun a b : Val × ℚ => decide (b.2 < a.2))
        ((sortedKeys kc).map (fun k => (k, specEconomy kc tc k)))).length ≤ 20 := by
      rw [length_sortBy, List.length_map, length_sortedKeys]
      exact hcard
    rw [List.take_of_length_le hfull]
    exact ⟨(k, specEconomy kc tc k), mem_sortBy.mpr
      (List.mem_map_of_mem _ (mem_sortedKeys.mpr ⟨hkk, hkn⟩)), rfl⟩

/-- Thirty-delivery balls frame: one bowler conceding one run per ball,
for the C7 witness (30 runs over 5 overs, economy 6). -/
def wB7 : Table :=
  ⟨[("bowler", List.replicate 30 (Val.vstr "B")),
    ("total_runs", List.replicate 30 (Val.vint 1))]⟩

/-- Witness for C7: the hypotheses hold at `wB7`, the theorem
instantiates, and the bowler's economy is exactly 6. -/
theorem C7_economy_witness :
    wB7.getCol "bowler" = some (List.replicate 30 (Val.vstr "B")) ∧
    (∃ d, ecoBlock (addBallFaced wB7) =
        .ok (.series "Top Economy Bowlers" d) ∧
      (∀ p ∈ d, p.2 = specEconomy (List.replicate 30 (Val.vstr "B"))
        (List.replicate 30 (Val.vint 1)) p.1) ∧
      d.Pairwise (fun p q => p.2 ≤ q.2) ∧
      d.length = min (((List.replicate 30 (Val.vstr "B")).filter
        (fun v => decide (v ≠ Val.vnull))).toFinset.card) 20 ∧
      (∀ k ∈ List.replicate 30 (Val.vstr "B"), k ≠ Val.vnull →
        (((List.replicate 30 (Val.vstr "B")).filter
          (fun v => decide (v ≠ Val.vnull))).toFinset.card ≤ 20) →
        ∃ p ∈ d, p.1 = k)) ∧
    ecoBlock (addBallFaced wB7) =
      .ok (.series "Top Economy Bowlers" [(Val.vstr "B", 6)]) :=
  ⟨rfl, C7_economy wB7 _ _ rfl rfl (by intro p hp; fin_cases hp <;> rfl),
    by with_unfolding_all rfl⟩

/-- Year a convertible date cell carries (0 as a dummy elsewhere). -/
def yearOf : Val → Int
  | .vstr s => (parseYear s).getD 0
  | _ => 0

theorem parseOk_false_not_datetimeLike {v : Val}
    (h : parseOkCell v = false) : datetimeLike v = false := by
  cases v <;> simp_all [parseOkCell, datetimeLike]

/-- C4: season derivation (dash.py lines 54-59). With both files present
and, after the column-name trim, season absent and date present: (a) when
every date cell is a string the parser accepts, the loader succeeds and
the derived season column holds exactly the integer calendar year of each
row's date; (b) when any cell fails to parse, errors="ignore" leaves the
whole column unconverted, the `.dt.year` access raises, and the loader
halts — it never silently produces a malformed season value. -/
theorem C4_season_derivation (rawM rawB : Table) (dc : List Val)
    (hseason : (trimCols rawM).hasCol "season" = false)
    (hdate : (trimCols rawM).getCol "date" = some dc) :
    ((∀ v ∈ dc, ∃ s y, v = Val.vstr s ∧ parseYear s = some y) →
      ∃ m2 b2, load_data true true rawM rawB =
          (⟨true, true, none⟩, .loaded m2 b2) ∧
        m2.getCol "season" = some (dc.map (fun v => Val.vint (yearOf v))) ∧
        (∀ v ∈ dc, ∀ s y, v = Val.vstr s → parseYear s = some y →
          Val.vint (yearOf v) = Val.vint y) ∧
        (∀ x ∈ dc.map (fun v => Val.vint (yearOf v)), ∃ n : Int, x = Val.vint n)) ∧
    ((∃ v ∈ dc, parseOkCell v = false) →
      load_data true true rawM rawB = (⟨true, true, none⟩, .raisedDtYear)) := by
  constructor
  · intro hall
    have hok : dc.all parseOkCell = true := by
      rw [List.all_eq_true]
      intro v hv
      rcases hall v hv with ⟨s, y, rfl, hsy⟩
      simp [parseOkCell, hsy]
    have hconv : toDatetimeIgnore dc = dc.map parseCell := by
      unfold toDatetimeIgnore
      rw [if_pos hok]
    have hm1s : ((trimCols rawM).setCol "date" (toDatetimeIgnore dc)).hasCol
        "season" = false := by
      rw [Table.hasCol_setCol_ne _ _ (by decide)]
      exact hseason
    have hm1d : ((trimCols rawM).setCol "date" (toDatetimeIgnore dc)).getCol
        "date" = some (dc.map parseCell) := by
      rw [Table.getCol_setCol_self]
      rw [hconv]
    have hdtl : (dc.map parseCell).all datetimeLike = true := by
      rw [List.all_eq_true]
      intro v hv
      rcases List.mem_map.mp hv with ⟨w, hw, rfl⟩
      rcases hall w hw with ⟨s, y, rfl, hsy⟩
      simp [parseCell, hsy, datetimeLike]
    have hstep : seasonStep ((trimCols rawM).setCol "date"
        (toDatetimeIgnore dc)) =
        some (((trimCols rawM).setCol "date" (toDatetimeIgnore dc)).setCol
          "season" ((dc.map parseCell).map dtYearCell)) := by
      unfold seasonStep
      rw [if_pos hm1s]
      simp only [hm1d]
      rw [if_pos hdtl]
    refine ⟨((trimCols rawM).setCol "date" (toDatetimeIgnore dc)).setCol
        "season" ((dc.map parseCell).map dtYearCell),
      addIsWicket (trimCols rawB), ?_, ?_, ?_, ?_⟩
    · unfold load_data
      rw [if_pos (show (true && true) = true from rfl)]
      simp only [hdate, hstep]
    · rw [Table.getCol_setCol_self]
      congr 1
      rw [List.map_map]
      apply List.map_congr_left
      intro v hv
      rcases hall v hv with ⟨s, y, rfl, hsy⟩
      simp [Function.comp, parseCell, hsy, dtYearCell, yearOf]
    · intro v hv s y hvs hsy
      subst hvs
      simp [yearOf, hsy]
    · intro x hx
      rcases List.mem_map.mp hx with ⟨w, hw, rfl⟩
      exact ⟨yearOf w, rfl⟩
  · rintro ⟨v0, hv0, hfail⟩
    have hnok : dc.all parseOkCell = false := by
      cases hall : dc.all parseOkCell with
      | false => rfl
      | true =>
        rw [List.all_eq_true] at hall
        rw [hall v0 hv0] at hfail
        exact absurd hfail (by simp)
    have hconv : toDatetimeIgnore dc = dc := by
      unfold toDatetimeIgnore
      rw [if_neg (by simp [hnok])]
    have hm1s : ((trimCols rawM).setCol "date" (toDatetimeIgnore dc)).hasCol
        "season" = false := by
      rw [Table.hasCol_setCol_ne _ _ (by decide)]
      exact hseason
    have hm1d : ((trimCols rawM).setCol "date" (toDatetimeIgnore dc)).getCol
        "date" = some dc := by
      rw [Table.getCol_setCol_self]
      rw [hconv]
    have hndt : dc.all datetimeLike = false := by
      cases hall : dc.all datetimeLike with
      | false => rfl
      | true =>
        rw [List.all_eq_true] at hall
        have hc := hall v0 hv0
        rw [parseOk_false_not_datetimeLike hfail] at hc
        exact absurd hc (by simp)
    have hstep : seasonStep ((trimCols rawM).setCol "date"
        (toDatetimeIgnore dc)) = none := by
      unfold seasonStep
      rw [if_pos hm1s]
      simp only [hm1d]
      rw [if_neg (by simp [hndt])]
    unfold load_data
    rw [if_pos (show (true && true) = true from rfl)]
    simp only [hdate, hstep]

/-- Matches frame whose date column parses on every row, for the C4
witness. -/
def wM4a : Table :=
  ⟨[("date", [Val.vstr "2008-04-18", Val.vstr "2009-05-01"])]⟩

/-- Matches frame with one unparseable date, for the C4 witness. -/
def wM4b : Table :=
  ⟨[("date", [Val.vstr "2008-04-18", Val.vstr "unknown"])]⟩

/-- Witness for C4: at `wM4a` every date parses and season becomes
[2008, 2009]; at `wM4b` one date fails and the loader raises instead of
deriving a season. -/
theorem C4_season_derivation_witness :
    (trimCols wM4a).hasCol "season" = false ∧
    (∃ m2 b2, load_data true true wM4a ⟨[]⟩ =
        (⟨true, true, none⟩, .loaded m2 b2) ∧
      m2.getCol "season" = some [Val.vint 2008, Val.vint 2009]) ∧
    load_data true true wM4b ⟨[]⟩ = (⟨true, true, none⟩, .raisedDtYear) := by
  refine ⟨by with_unfolding_all rfl, ?_, ?_⟩
  · have hall : ∀ v ∈ [Val.vstr "2008-04-18", Val.vstr "2009-05-01"],
        ∃ s y, v = Val.vstr s ∧ parseYear s = some y := by
      intro v hv
      fin_cases hv
      · exact ⟨"2008-04-18", 2008, rfl, by with_unfolding_all rfl⟩
      · exact ⟨"2009-05-01", 2009, rfl, by with_unfolding_all rfl⟩
    rcases (C4_season_derivation wM4a ⟨[]⟩
        [Val.vstr "2008-04-18", Val.vstr "2009-05-01"]
        (by with_unfolding_all rfl) (by with_unfolding_all rfl)).1 hall with
      ⟨m2, b2, h1, h2, _, _⟩
    refine ⟨m2, b2, h1, ?_⟩
    rw [h2]
    with_unfolding_all rfl
  · exact (C4_season_derivation wM4b ⟨[]⟩
        [Val.vstr "2008-04-18", Val.vstr "unknown"]
        (by with_unfolding_all rfl) (by with_unfolding_all rfl)).2
      ⟨Val.vstr "unknown", by simp, by with_unfolding_all rfl⟩

end Dash
